import Mathlib

/-! Tiered flag and segment repository.

Shallow embedding of `pkg/repository/repository.go` and of the capability
interface `cache/cache.go`.

* Mutable collaborators (cache, durable store, callback observer) become fields
  of one explicit state value that every operation takes and returns.
* A Go run-time panic (failed type assertion, nil pointer dereference) is an
  `Except.error` of type `Fault`, paired with the state reached at the panic.
* A Go `error` result is the inner `Except WrappedError _`.
* `log.Errorf` calls have no effect on the state and are left out.
-/

namespace Repository

/-! ## Data model -/

/-- Modelled from the spec: the type `rest.FeatureConfig` is declared in package
`rest`, whose source is not available. The repository reads the fields `Feature` (a string) and `Version`
(a pointer to an integer, nil when absent: the code compares it with nil and
dereferences it); everything else is payload the repository never inspects. -/
structure FeatureConfig where
  Feature : String
  Version : Option Int
  payload : String
deriving DecidableEq, Repr

/-- Modelled from the spec: the type `rest.Segment` is declared in a package
whose source is not available. The repository reads `Identifier` and the pointer field `Version`. -/
structure Segment where
  Identifier : String
  Version : Option Int
  payload : String
deriving DecidableEq, Repr

/-- Dynamic values held behind `interface{}` in the cache and in the store: the
four kinds of value the repository writes. A nil interface is `none` at the
places where one can occur. -/
inductive Value where
  | featureConfig (fc : FeatureConfig)
  | segment (s : Segment)
  | featureConfigs (fcs : List FeatureConfig)
  | segments (ss : List Segment)
deriving DecidableEq, Repr

/-- Go run-time panics the repository code can raise. -/
inductive Fault where
  | typeAssertion
  | nilDereference
deriving DecidableEq, Repr

/-- Modelled from the spec: the sentinel errors `ErrFeatureConfigNotFound` and
`ErrSegmentNotFound` are declared in a file of the package whose source is not
available. -/
inductive Sentinel where
  | ErrFeatureConfigNotFound
  | ErrSegmentNotFound
deriving DecidableEq, Repr

/-- The error built by `fmt.Errorf("%w with identifier: %s", sentinel, identifier)`:
it wraps the sentinel and carries the identifier. -/
structure WrappedError where
  wraps : Sentinel
  identifier : String
deriving DecidableEq, Repr

/-- Notifications of the `Callback` interface, one constructor per method. -/
inductive Event where
  | OnFlagStored (identifier : String)
  | OnFlagsStored (envID : String)
  | OnFlagDeleted (identifier : String)
  | OnSegmentStored (identifier : String)
  | OnSegmentsStored (envID : String)
  | OnSegmentDeleted (identifier : String)
deriving DecidableEq, Repr

/-! ## Key formatting -/

def formatFlagKey (identifier : String) : String :=
  "flag/" ++ identifier

def formatFlagsKey (envID : String) : String :=
  "flags/" ++ envID

def formatSegmentKey (identifier : String) : String :=
  "target-segment/" ++ identifier

def formatSegmentsKey (envID : String) : String :=
  "target-segments/" ++ envID

/-! ## Key-value lists shared by both tiers -/

/-- First value bound to `key`, if any. -/
def lookup (key : String) : List (String × Value) → Option Value
  | [] => none
  | (k, v) :: rest => if k = key then some v else lookup key rest

/-- Rebind every entry of `key` to `value`. -/
def rebind (key : String) (value : Value) : List (String × Value) → List (String × Value)
  | [] => []
  | (k, v) :: rest =>
    if k = key then (key, value) :: rebind key value rest else (k, v) :: rebind key value rest

/-- Drop every entry of `key`. -/
def unbind (key : String) : List (String × Value) → List (String × Value)
  | [] => []
  | (k, v) :: rest => if k = key then unbind key rest else (k, v) :: unbind key rest

/-! ## Cache capability -/

/-- Modelled from the spec: only the interface `Cache` is in the sources, no
implementation. The spec describes a bounded key to value store with eviction.
Entries are kept oldest first; `capacity` is the bound (positive for every cache
that can be constructed). -/
structure Cache where
  capacity : Nat
  entries : List (String × Value)
deriving DecidableEq, Repr

namespace Cache

/-- Modelled from the spec: `Get(key)` returns the value and whether it was
found. A lookup does not change what the cache holds; recency bookkeeping of an
implementation is not part of the state. -/
def Get (c : Cache) (key : String) : Option Value :=
  lookup key c.entries

/-- Modelled from the spec: `Contains(key)`. -/
def Contains (c : Cache) (key : String) : Bool :=
  (c.Get key).isSome

/-- Modelled from the spec: `Set(key, value)` returns whether an entry was
evicted. A present key is rebound in place. A new key is appended, after the
oldest entry was dropped when the cache is full. -/
def Set (c : Cache) (key : String) (value : Value) : Cache × Bool :=
  if (lookup key c.entries).isSome then
    ({ c with entries := rebind key value c.entries }, false)
  else if c.entries.length < c.capacity then
    ({ c with entries := c.entries ++ [(key, value)] }, false)
  else
    ({ c with entries := c.entries.drop 1 ++ [(key, value)] }, true)

/-- Modelled from the spec: `Remove(key)` returns whether the key was present. -/
def Remove (c : Cache) (key : String) : Cache × Bool :=
  ({ c with entries := unbind key c.entries }, (lookup key c.entries).isSome)

end Cache

/-! ## Durable store capability -/

/-- Modelled from the spec: the interface `storage.Storage` is declared in
package `storage`, whose source is not available. The spec describes an unbounded key to value store whose
`Set` and `Remove` may fail. `faults` scripts the coming mutating calls: each
call consumes the head, `true` meaning that this call fails and changes no
data; with an empty script calls succeed. -/
structure Storage where
  data : List (String × Value)
  faults : List Bool
deriving DecidableEq, Repr

namespace Storage

/-- Modelled from the spec: `Get(key)` returns the value and whether it was
found; on a miss the value is the nil interface (`none`). -/
def Get (s : Storage) (key : String) : Option Value :=
  lookup key s.data

/-- Modelled from the spec: `Set(key, value)` returns an error or nil; the
Boolean is `true` when an error is returned. -/
def Set (s : Storage) (key : String) (value : Value) : Storage × Bool :=
  match s.faults with
  | true :: rest => ({ s with faults := rest }, true)
  | _ =>
    ({ data := if (lookup key s.data).isSome then rebind key value s.data
               else s.data ++ [(key, value)],
       faults := s.faults.drop 1 }, false)

/-- Modelled from the spec: `Remove(key)` returns an error or nil; the Boolean
is `true` when an error is returned. -/
def Remove (s : Storage) (key : String) : Storage × Bool :=
  match s.faults with
  | true :: rest => ({ s with faults := rest }, true)
  | _ => ({ data := unbind key s.data, faults := s.faults.drop 1 }, false)

end Storage

/-! ## Repository -/

/-- The struct `FFRepository` together with the state of its collaborators:
`storage` and `callback` are `none` when the Go field is nil. A configured
callback is the list of notifications it has received, oldest first. -/
structure FFRepository where
  cache : Cache
  storage : Option Storage
  callback : Option (List Event)
deriving DecidableEq, Repr

/-- The constructor `New`: cache only. -/
def New (cache : Cache) : FFRepository :=
  { cache := cache, storage := none, callback := none }

/-- The constructor `NewWithStorage`. -/
def NewWithStorage (cache : Cache) (storage : Storage) : FFRepository :=
  { cache := cache, storage := some storage, callback := none }

/-- The constructor `NewWithStorageAndCallback`; the observer starts with an
empty record of notifications. -/
def NewWithStorageAndCallback (cache : Cache) (storage : Storage) : FFRepository :=
  { cache := cache, storage := some storage, callback := some [] }

/-- The type assertion `flag.(rest.FeatureConfig)`: panics on a nil interface and
on every other dynamic type. -/
def assertFeatureConfig : Option Value → Except Fault FeatureConfig
  | some (.featureConfig fc) => .ok fc
  | _ => .error .typeAssertion

/-- The type assertion `flag.(rest.Segment)`. -/
def assertSegment : Option Value → Except Fault Segment
  | some (.segment s) => .ok s
  | _ => .error .typeAssertion

namespace FFRepository

def getFlagAndCache (r : FFRepository) (identifier : String) (cacheable : Bool) :
    Except Fault (Except WrappedError FeatureConfig) × FFRepository :=
  let flagKey := formatFlagKey identifier
  match r.cache.Get flagKey with
  | some flag =>
    match assertFeatureConfig (some flag) with
    | .ok fc => (.ok (.ok fc), r)
    | .error f => (.error f, r)
  | none =>
    match r.storage with
    | some st =>
      let r1 : FFRepository :=
        match st.Get flagKey with
        | some flag =>
          if cacheable then { r with cache := (r.cache.Set flagKey flag).1 } else r
        | none => r
      match assertFeatureConfig (st.Get flagKey) with
      | .ok fc => (.ok (.ok fc), r1)
      | .error f => (.error f, r1)
    | none =>
      (.ok (.error { wraps := .ErrFeatureConfigNotFound, identifier := identifier }), r)

def GetFlag (r : FFRepository) (identifier : String) :
    Except Fault (Except WrappedError FeatureConfig) × FFRepository :=
  r.getFlagAndCache identifier true

def GetFlags (r : FFRepository) :
    Except Fault (Except WrappedError (List FeatureConfig)) × FFRepository :=
  (.ok (.ok []), r)

def getSegmentAndCache (r : FFRepository) (identifier : String) (cacheable : Bool) :
    Except Fault (Except WrappedError Segment) × FFRepository :=
  let segmentKey := formatSegmentKey identifier
  match r.cache.Get segmentKey with
  | some flag =>
    match assertSegment (some flag) with
    | .ok s => (.ok (.ok s), r)
    | .error f => (.error f, r)
  | none =>
    match r.storage with
    | some st =>
      let r1 : FFRepository :=
        match st.Get segmentKey with
        | some flag =>
          if cacheable then { r with cache := (r.cache.Set segmentKey flag).1 } else r
        | none => r
      match assertSegment (st.Get segmentKey) with
      | .ok s => (.ok (.ok s), r1)
      | .error f => (.error f, r1)
    | none =>
      (.ok (.error { wraps := .ErrSegmentNotFound, identifier := identifier }), r)

def GetSegment (r : FFRepository) (identifier : String) :
    Except Fault (Except WrappedError Segment) × FFRepository :=
  r.getSegmentAndCache identifier true

def isFlagOutdated (r : FFRepository) (featureConfig : FeatureConfig) :
    Except Fault Bool × FFRepository :=
  match r.getFlagAndCache featureConfig.Feature false with
  | (.error f, r1) => (.error f, r1)
  | (.ok (.error _), r1) => (.ok false, r1)
  | (.ok (.ok oldFlag), r1) =>
    match oldFlag.Version with
    | none => (.ok false, r1)
    | some oldVersion =>
      match featureConfig.Version with
      | none => (.error .nilDereference, r1)
      | some newVersion => (.ok (decide (oldVersion ≥ newVersion)), r1)

def areFlagsOutdated (r : FFRepository) :
    List FeatureConfig → Except Fault Bool × FFRepository
  | [] => (.ok false, r)
  | flag :: rest =>
    match r.isFlagOutdated flag with
    | (.error f, r1) => (.error f, r1)
    | (.ok true, r1) => (.ok true, r1)
    | (.ok false, r1) => areFlagsOutdated r1 rest

def isSegmentOutdated (r : FFRepository) (segment : Segment) :
    Except Fault Bool × FFRepository :=
  match r.getSegmentAndCache segment.Identifier false with
  | (.error f, r1) => (.error f, r1)
  | (.ok (.error _), r1) => (.ok false, r1)
  | (.ok (.ok oldSegment), r1) =>
    match oldSegment.Version with
    | none => (.ok false, r1)
    | some oldVersion =>
      match segment.Version with
      | none => (.error .nilDereference, r1)
      | some newVersion => (.ok (decide (oldVersion ≥ newVersion)), r1)

def areSegmentsOutdated (r : FFRepository) :
    List Segment → Except Fault Bool × FFRepository
  | [] => (.ok false, r)
  | segment :: rest =>
    match r.isSegmentOutdated segment with
    | (.error f, r1) => (.error f, r1)
    | (.ok true, r1) => (.ok true, r1)
    | (.ok false, r1) => areSegmentsOutdated r1 rest

def SetFlag (r : FFRepository) (featureConfig : FeatureConfig) (initialLoad : Bool) :
    Except Fault Unit × FFRepository :=
  let checked : Except Fault Bool × FFRepository :=
    if initialLoad then (.ok false, r) else r.isFlagOutdated featureConfig
  match checked with
  | (.error f, r1) => (.error f, r1)
  | (.ok true, r1) => (.ok (), r1)
  | (.ok false, r1) =>
    let flagKey := formatFlagKey featureConfig.Feature
    let r2 : FFRepository :=
      match r1.storage with
      | some st =>
        { r1 with storage := some (st.Set flagKey (.featureConfig featureConfig)).1,
                  cache := (r1.cache.Remove flagKey).1 }
      | none => { r1 with cache := (r1.cache.Set flagKey (.featureConfig featureConfig)).1 }
    match r2.callback with
    | some seen => (.ok (), { r2 with callback := some (seen ++ [.OnFlagStored featureConfig.Feature]) })
    | none => (.ok (), r2)

def SetFlags (r : FFRepository) (initialLoad : Bool) (envID : String)
    (featureConfigs : List FeatureConfig) : Except Fault Unit × FFRepository :=
  let checked : Except Fault Bool × FFRepository :=
    if initialLoad then (.ok false, r) else r.areFlagsOutdated featureConfigs
  match checked with
  | (.error f, r1) => (.error f, r1)
  | (.ok true, r1) => (.ok (), r1)
  | (.ok false, r1) =>
    let key := formatFlagsKey envID
    let r2 : FFRepository :=
      match r1.storage with
      | some st =>
        { r1 with storage := some (st.Set key (.featureConfigs featureConfigs)).1,
                  cache := (r1.cache.Remove key).1 }
      | none => { r1 with cache := (r1.cache.Set key (.featureConfigs featureConfigs)).1 }
    match r2.callback with
    | some seen => (.ok (), { r2 with callback := some (seen ++ [.OnFlagsStored envID]) })
    | none => (.ok (), r2)

def SetSegment (r : FFRepository) (segment : Segment) (initialLoad : Bool) :
    Except Fault Unit × FFRepository :=
  let checked : Except Fault Bool × FFRepository :=
    if initialLoad then (.ok false, r) else r.isSegmentOutdated segment
  match checked with
  | (.error f, r1) => (.error f, r1)
  | (.ok true, r1) => (.ok (), r1)
  | (.ok false, r1) =>
    let segmentKey := formatSegmentKey segment.Identifier
    let r2 : FFRepository :=
      match r1.storage with
      | some st =>
        { r1 with storage := some (st.Set segmentKey (.segment segment)).1,
                  cache := (r1.cache.Remove segmentKey).1 }
      | none => { r1 with cache := (r1.cache.Set segmentKey (.segment segment)).1 }
    match r2.callback with
    | some seen => (.ok (), { r2 with callback := some (seen ++ [.OnSegmentStored segment.Identifier]) })
    | none => (.ok (), r2)

def SetSegments (r : FFRepository) (initialLoad : Bool) (envID : String)
    (segments : List Segment) : Except Fault Unit × FFRepository :=
  let checked : Except Fault Bool × FFRepository :=
    if initialLoad then (.ok false, r) else r.areSegmentsOutdated segments
  match checked with
  | (.error f, r1) => (.error f, r1)
  | (.ok true, r1) => (.ok (), r1)
  | (.ok false, r1) =>
    let key := formatSegmentsKey envID
    let r2 : FFRepository :=
      match r1.storage with
      | some st =>
        { r1 with storage := some (st.Set key (.segments segments)).1,
                  cache := (r1.cache.Remove key).1 }
      | none => { r1 with cache := (r1.cache.Set key (.segments segments)).1 }
    match r2.callback with
    | some seen => (.ok (), { r2 with callback := some (seen ++ [.OnFlagsStored envID]) })
    | none => (.ok (), r2)

def DeleteFlag (r : FFRepository) (identifier : String) : Except Fault Unit × FFRepository :=
  let flagKey := formatFlagKey identifier
  let r1 : FFRepository :=
    match r.storage with
    | some st => { r with storage := some (st.Remove flagKey).1 }
    | none => r
  let r2 : FFRepository := { r1 with cache := (r1.cache.Remove flagKey).1 }
  match r2.callback with
  | some seen => (.ok (), { r2 with callback := some (seen ++ [.OnFlagDeleted identifier]) })
  | none => (.ok (), r2)

def DeleteSegment (r : FFRepository) (identifier : String) : Except Fault Unit × FFRepository :=
  let segmentKey := formatSegmentKey identifier
  let r1 : FFRepository :=
    match r.storage with
    | some st => { r with storage := some (st.Remove segmentKey).1 }
    | none => r
  let r2 : FFRepository := { r1 with cache := (r1.cache.Remove segmentKey).1 }
  match r2.callback with
  | some seen => (.ok (), { r2 with callback := some (seen ++ [.OnSegmentDeleted identifier]) })
  | none => (.ok (), r2)

def Close (r : FFRepository) : Except Fault Unit × FFRepository :=
  (.ok (), r)

end FFRepository

/-! ## Observations used to state the properties -/

deriving instance DecidableEq for Except

/-- Value found for `key` in the read order of the code: the cache first, then
the store when one is configured. -/
def FFRepository.stored (r : FFRepository) (key : String) : Option Value :=
  match r.cache.Get key with
  | some v => some v
  | none =>
    match r.storage with
    | some st => st.Get key
    | none => none

/-- Version of the flag definition found for `identifier` in the read order of
the code; `none` when nothing is found, when the value found is not a flag
definition, or when the definition carries no version. -/
def FFRepository.storedFlagVersion (r : FFRepository) (identifier : String) : Option Int :=
  match r.stored (formatFlagKey identifier) with
  | some (.featureConfig fc) => fc.Version
  | _ => none

/-- Version of the segment definition found for `identifier` in the read order
of the code. -/
def FFRepository.storedSegmentVersion (r : FFRepository) (identifier : String) : Option Int :=
  match r.stored (formatSegmentKey identifier) with
  | some (.segment s) => s.Version
  | _ => none

/-- Value held for `key` by the tier of record: the store when one is
configured, the cache otherwise. -/
def FFRepository.record (r : FFRepository) (key : String) : Option Value :=
  match r.storage with
  | some st => st.Get key
  | none => r.cache.Get key

/-- Version of the flag definition that the tier of record holds for
`identifier`. -/
def FFRepository.recordVersion (r : FFRepository) (identifier : String) : Option Int :=
  match r.record (formatFlagKey identifier) with
  | some (.featureConfig fc) => fc.Version
  | _ => none

/-- The staleness comparator in the words of the spec (section 4.3): stale iff
the stored version is present, the incoming version is present, and
stored ≥ incoming. -/
def staleBySpec : Option Int → Option Int → Bool
  | some S, some I => decide (S ≥ I)
  | _, _ => false

/-- Order on optional versions: an absent version is below every version. -/
def versionLE : Option Int → Option Int → Prop
  | none, _ => True
  | some _, none => False
  | some a, some b => a ≤ b

instance versionLE.instDecidable : (a b : Option Int) → Decidable (versionLE a b)
  | none, _ => isTrue trivial
  | some _, none => isFalse (fun h => h)
  | some a, some b => inferInstanceAs (Decidable (a ≤ b))

/-- The cache agrees with the store on `key`: with a store configured, the cache
has no entry for the key or the same entry as the store. Every state that the
repository operations build from empty tiers is of this kind, since a write
evicts the key from the cache and a read fills the cache from the store. -/
def FFRepository.coherentAt (r : FFRepository) (key : String) : Prop :=
  match r.storage with
  | none => True
  | some st => r.cache.Get key = none ∨ r.cache.Get key = st.Get key

/-- States visited by a sequence of `SetFlag(def, initialLoad=false)` calls, the
initial state first. A call that panics contributes the state reached at the
panic, and the run goes on from there. -/
def traceSetFlag (r : FFRepository) : List FeatureConfig → List FFRepository
  | [] => [r]
  | fc :: rest => r :: traceSetFlag (r.SetFlag fc false).2 rest

/-- The next `Set` or `Remove` of the store succeeds. -/
def Storage.nextSucceeds (s : Storage) : Prop :=
  s.faults.head? ≠ some true

/-- What both tiers hold for `key`: the cache entry, and the store entry when a
store is configured. -/
def FFRepository.tiersAt (r : FFRepository) (key : String) :
    Option Value × Option (Option Value) :=
  (r.cache.Get key, r.storage.map (fun st => st.Get key))

/-- Contents of both tiers: the cache entries, and the store data when a store
is configured. -/
def FFRepository.contents (r : FFRepository) :
    List (String × Value) × Option (List (String × Value)) :=
  (r.cache.entries, r.storage.map (fun st => st.data))

/-! ## Example inputs -/

/-- Flag definition `x` with the given version. -/
def flagX (v : Option Int) : FeatureConfig :=
  { Feature := "x", Version := v, payload := "" }

/-- Segment definition `x` with the given version. -/
def segmentX (v : Option Int) : Segment :=
  { Identifier := "x", Version := v, payload := "" }

/-- Empty cache of capacity two. -/
def emptyCache : Cache :=
  { capacity := 2, entries := [] }

/-- Empty store whose calls all succeed. -/
def emptyStore : Storage :=
  { data := [], faults := [] }

/-- Cache-only repository whose cache holds flag `x` at version 5. -/
def cacheOnlyAt5 : FFRepository :=
  New { capacity := 2, entries := [(formatFlagKey "x", .featureConfig (flagX (some 5)))] }

/-- Cache-only repository whose cache holds segment `x` at version 5. -/
def cacheOnlySegmentAt5 : FFRepository :=
  New { capacity := 2, entries := [(formatSegmentKey "x", .segment (segmentX (some 5)))] }

/-- Flag definition with the given identifier and version. -/
def flagNamed (identifier : String) (v : Option Int) : FeatureConfig :=
  { Feature := identifier, Version := v, payload := "" }

/-- Segment definition with the given identifier and version. -/
def segmentNamed (identifier : String) (v : Option Int) : Segment :=
  { Identifier := identifier, Version := v, payload := "" }

/-- Cache-only repository with a callback, holding flag `f2` and segment `s2`,
both at version 5. -/
def holdsSecondAt5 : FFRepository :=
  { cache :=
      { capacity := 4,
        entries := [(formatFlagKey "f2", .featureConfig (flagNamed "f2" (some 5))),
                    (formatSegmentKey "s2", .segment (segmentNamed "s2" (some 5)))] },
    storage := none,
    callback := some [] }

/-- Repository whose store holds flag `x` and segment `x` at version 5, whose
cache is empty, and whose next store call fails. -/
def storeFilled : FFRepository :=
  NewWithStorageAndCallback emptyCache
    { data := [(formatFlagKey "x", .featureConfig (flagX (some 5))),
               (formatSegmentKey "x", .segment (segmentX (some 5)))],
      faults := [true] }

/-- Repository whose cache holds flag `x` at version 1 and whose store is empty
and fails its next call. -/
def cachedWithFailingStore : FFRepository :=
  NewWithStorage
    { capacity := 2, entries := [(formatFlagKey "x", .featureConfig (flagX (some 1)))] }
    { data := [], faults := [true] }

/-- Repository with an empty cache and an empty store, no callback. -/
def emptyWithStore : FFRepository :=
  NewWithStorage emptyCache emptyStore

/-- Repository with a store holding flag `x` at version 5, an empty cache and
a callback. -/
def storeAt5 : FFRepository :=
  NewWithStorageAndCallback emptyCache
    { data := [(formatFlagKey "x", .featureConfig (flagX (some 5)))], faults := [] }

/-- Repository with a callback whose cache holds flag `x` at version 5 while
its store holds flag `x` at version 1 and fails its second call. -/
def cacheAheadOfStore : FFRepository :=
  NewWithStorageAndCallback
    { capacity := 2, entries := [(formatFlagKey "x", .featureConfig (flagX (some 5)))] }
    { data := [(formatFlagKey "x", .featureConfig (flagX (some 1)))], faults := [false, true] }

/-- Repository whose cache holds flag `x` at version 1 while its store holds
flag `x` at version 5. -/
def cacheBehindStore : FFRepository :=
  NewWithStorage
    { capacity := 2, entries := [(formatFlagKey "x", .featureConfig (flagX (some 1)))] }
    { data := [(formatFlagKey "x", .featureConfig (flagX (some 5)))], faults := [] }

/-- Cache-only repository whose cache of capacity one holds segment `x`. -/
def fullCacheSegment : FFRepository :=
  New { capacity := 1, entries := [(formatSegmentKey "x", .segment (segmentX (some 5)))] }

/-- Cache-only repository whose cache of capacity one holds flag `x`. -/
def fullCacheFlag : FFRepository :=
  New { capacity := 1, entries := [(formatFlagKey "x", .featureConfig (flagX (some 5)))] }

/-- Repository with a callback, an empty cache and an empty store whose calls
all succeed. -/
def emptyObserved : FFRepository :=
  NewWithStorageAndCallback emptyCache emptyStore

/-- Cache-only repository with a callback and an empty cache. -/
def cacheOnlyObserved : FFRepository :=
  { cache := emptyCache, storage := none, callback := some [] }

/-- Repository with a callback whose cache and store both hold flag `x` at
version 1 and whose store fails its next call. -/
def observedFailingStore : FFRepository :=
  NewWithStorageAndCallback
    { capacity := 2, entries := [(formatFlagKey "x", .featureConfig (flagX (some 1)))] }
    { data := [(formatFlagKey "x", .featureConfig (flagX (some 1)))], faults := [true] }

/-- Repository with an empty cache and an empty store that fails its next call. -/
def emptyFailingStore : FFRepository :=
  NewWithStorage emptyCache { data := [], faults := [true] }

/-- Cache-only repository after the initial load of the collection `[x at 5]`
for environment `env`. -/
def collectionAt5 : FFRepository :=
  ((New emptyCache).SetFlags true "env" [flagX (some 5)]).2

/-! ## Lemmas on key-value lists -/

theorem lookup_rebind_self (key : String) (v : Value) (l : List (String × Value))
    (h : (lookup key l).isSome = true) : lookup key (rebind key v l) = some v := by
  induction l with
  | nil => simp [lookup] at h
  | cons e rest ih =>
    obtain ⟨k, w⟩ := e
    by_cases hk : k = key
    · simp [rebind, lookup, hk]
    · simp [lookup, hk] at h
      simp [rebind, lookup, hk, ih h]

theorem lookup_append_new (key : String) (v : Value) (l : List (String × Value))
    (h : lookup key l = none) : lookup key (l ++ [(key, v)]) = some v := by
  induction l with
  | nil => simp [lookup]
  | cons e rest ih =>
    obtain ⟨k, w⟩ := e
    by_cases hk : k = key
    · simp [lookup, hk] at h
    · simp [lookup, hk] at h
      simp [lookup, hk, ih h]

theorem lookup_drop_one (key : String) (l : List (String × Value))
    (h : lookup key l = none) : lookup key (l.drop 1) = none := by
  cases l with
  | nil => simp [lookup]
  | cons e rest =>
    obtain ⟨k, w⟩ := e
    by_cases hk : k = key
    · simp [lookup, hk] at h
    · simp [lookup, hk] at h
      simpa using h

theorem lookup_unbind_self (key : String) (l : List (String × Value)) :
    lookup key (unbind key l) = none := by
  induction l with
  | nil => simp [unbind, lookup]
  | cons e rest ih =>
    obtain ⟨k, w⟩ := e
    by_cases hk : k = key
    · simp [unbind, hk, ih]
    · simp [unbind, lookup, hk, ih]

/-! ## Lemmas on the two tiers -/

theorem Cache.cache_Get_Set_self (c : Cache) (key : String) (v : Value) :
    (c.Set key v).1.Get key = some v := by
  unfold Cache.Set Cache.Get
  by_cases h : (lookup key c.entries).isSome = true
  · simp [h, lookup_rebind_self key v c.entries h]
  · have hn : lookup key c.entries = none := by
      cases hl : lookup key c.entries with
      | none => rfl
      | some w => simp [hl] at h
    by_cases hlen : c.entries.length < c.capacity
    · simp [hn, hlen, lookup_append_new key v c.entries hn]
    · have h2 := lookup_append_new key v (c.entries.drop 1) (lookup_drop_one key c.entries hn)
      simp only [List.drop_one] at h2
      simp [hn, hlen, h2]

theorem Cache.cache_Get_Remove_self (c : Cache) (key : String) :
    (c.Remove key).1.Get key = none := by
  simp [Cache.Remove, Cache.Get, lookup_unbind_self]

theorem Storage.store_Get_Set_self (s : Storage) (key : String) (v : Value)
    (h : s.nextSucceeds) : (s.Set key v).1.Get key = some v := by
  unfold Storage.nextSucceeds at h
  unfold Storage.Set Storage.Get
  split
  · next rest hf => simp [hf] at h
  · by_cases hl : (lookup key s.data).isSome = true
    · simp [hl, lookup_rebind_self key v s.data hl]
    · have hn : lookup key s.data = none := by
        cases hl2 : lookup key s.data with
        | none => rfl
        | some w => simp [hl2] at hl
      simp [hn, lookup_append_new key v s.data hn]

theorem Storage.store_Set_failed (s : Storage) (key : String) (v : Value)
    (h : ¬ s.nextSucceeds) : (s.Set key v).1.data = s.data := by
  unfold Storage.nextSucceeds at h
  unfold Storage.Set
  split
  · rfl
  · next hf =>
    exfalso
    apply h
    cases hfa : s.faults with
    | nil => simp
    | cons b rest =>
      cases b with
      | false => simp
      | true => exact absurd hfa (hf rest)

/-! ## Lemmas on the read path and the staleness check -/

namespace FFRepository

theorem getFlagAndCache_false_state (r : FFRepository) (identifier : String) :
    (r.getFlagAndCache identifier false).2 = r := by
  unfold getFlagAndCache
  simp only []
  split
  · split <;> rfl
  · split
    · split <;> split <;> simp
    · rfl

theorem getFlagAndCache_false_result (r : FFRepository) (identifier : String) :
    (r.getFlagAndCache identifier false).1 =
      match r.stored (formatFlagKey identifier) with
      | some (.featureConfig fc) => .ok (.ok fc)
      | some _ => .error .typeAssertion
      | none =>
        match r.storage with
        | some _ => .error .typeAssertion
        | none => .ok (.error { wraps := .ErrFeatureConfigNotFound, identifier := identifier }) := by
  unfold getFlagAndCache stored
  simp only []
  cases hc : r.cache.Get (formatFlagKey identifier) with
  | some v => cases v <;> simp [assertFeatureConfig]
  | none =>
    cases hs : r.storage with
    | none => simp
    | some st =>
      cases hg : st.Get (formatFlagKey identifier) with
      | none => simp [hg, assertFeatureConfig]
      | some v => cases v <;> simp [hg, assertFeatureConfig]

theorem isFlagOutdated_state (r : FFRepository) (fc : FeatureConfig) :
    (r.isFlagOutdated fc).2 = r := by
  have h := getFlagAndCache_false_state r fc.Feature
  unfold isFlagOutdated
  split
  · next f r1 heq => simpa [heq] using h
  · next e r1 heq => simpa [heq] using h
  · next old r1 heq =>
    have h1 : r1 = r := by simpa [heq] using h
    split
    · exact h1
    · split <;> exact h1

theorem isFlagOutdated_of_stale (r : FFRepository) (fc : FeatureConfig)
    (h : staleBySpec (r.storedFlagVersion fc.Feature) fc.Version = true) :
    r.isFlagOutdated fc = (.ok true, r) := by
  have hr := getFlagAndCache_false_result r fc.Feature
  have hst := getFlagAndCache_false_state r fc.Feature
  unfold storedFlagVersion at h
  cases hv : r.stored (formatFlagKey fc.Feature) with
  | none => simp [hv, staleBySpec] at h
  | some v =>
    cases v with
    | featureConfig old =>
      simp only [hv] at h hr
      cases hS : old.Version with
      | none => simp [hS, staleBySpec] at h
      | some S =>
        cases hI : fc.Version with
        | none => simp [hS, hI, staleBySpec] at h
        | some I =>
          simp [hS, hI, staleBySpec] at h
          have hp : r.getFlagAndCache fc.Feature false = (.ok (.ok old), r) := Prod.ext hr hst
          simp [isFlagOutdated, hp, hS, hI, h]
    | segment s => simp [hv, staleBySpec] at h
    | featureConfigs l => simp [hv, staleBySpec] at h
    | segments l => simp [hv, staleBySpec] at h

theorem pair_eq {α β : Type} (p : α × β) (a : α) (b : β) (h1 : p.1 = a) (h2 : p.2 = b) :
    p = (a, b) := by
  cases p
  simp only at h1 h2
  rw [h1, h2]

theorem isFlagOutdated_fst (r : FFRepository) (fc : FeatureConfig) :
    (r.isFlagOutdated fc).1 =
      match r.stored (formatFlagKey fc.Feature) with
      | some (.featureConfig old) =>
        match old.Version with
        | none => .ok false
        | some S =>
          match fc.Version with
          | none => .error .nilDereference
          | some I => .ok (decide (S ≥ I))
      | some _ => .error .typeAssertion
      | none =>
        match r.storage with
        | some _ => .error .typeAssertion
        | none => .ok false := by
  have hr := getFlagAndCache_false_result r fc.Feature
  have hst := getFlagAndCache_false_state r fc.Feature
  cases hv : r.stored (formatFlagKey fc.Feature) with
  | none =>
    simp only [hv] at hr
    cases hs : r.storage with
    | none =>
      simp only [hs] at hr
      have hp := pair_eq (r.getFlagAndCache fc.Feature false) _ r hr hst
      simp [isFlagOutdated, hp]
    | some st =>
      simp only [hs] at hr
      have hp := pair_eq (r.getFlagAndCache fc.Feature false) _ r hr hst
      simp [isFlagOutdated, hp]
  | some v =>
    cases v with
    | featureConfig old =>
      simp only [hv] at hr
      have hp := pair_eq (r.getFlagAndCache fc.Feature false) _ r hr hst
      cases hS : old.Version with
      | none => simp [isFlagOutdated, hp, hS]
      | some S =>
        cases hI : fc.Version with
        | none => simp [isFlagOutdated, hp, hS, hI]
        | some I => simp [isFlagOutdated, hp, hS, hI]
    | segment x =>
      simp only [hv] at hr
      have hp := pair_eq (r.getFlagAndCache fc.Feature false) _ r hr hst
      simp [isFlagOutdated, hp]
    | featureConfigs x =>
      simp only [hv] at hr
      have hp := pair_eq (r.getFlagAndCache fc.Feature false) _ r hr hst
      simp [isFlagOutdated, hp]
    | segments x =>
      simp only [hv] at hr
      have hp := pair_eq (r.getFlagAndCache fc.Feature false) _ r hr hst
      simp [isFlagOutdated, hp]

/-- State reached by an accepted `SetFlag`, written out tier by tier. -/
theorem SetFlag_accepted (r : FFRepository) (fc : FeatureConfig) (initialLoad : Bool)
    (h : initialLoad = true ∨ (r.isFlagOutdated fc).1 = .ok false) :
    r.SetFlag fc initialLoad =
      (.ok (),
        { cache :=
            match r.storage with
            | some _ => (r.cache.Remove (formatFlagKey fc.Feature)).1
            | none => (r.cache.Set (formatFlagKey fc.Feature) (.featureConfig fc)).1,
          storage :=
            match r.storage with
            | some st => some (st.Set (formatFlagKey fc.Feature) (.featureConfig fc)).1
            | none => none,
          callback :=
            match r.callback with
            | some seen => some (seen ++ [.OnFlagStored fc.Feature])
            | none => none }) := by
  have hchk : (if initialLoad = true then ((.ok false, r) : Except Fault Bool × FFRepository)
      else r.isFlagOutdated fc) = (.ok false, r) := by
    cases initialLoad with
    | true => rfl
    | false =>
      rcases h with h | h
      · cases h
      · exact Prod.ext h (isFlagOutdated_state r fc)
  unfold SetFlag
  simp only [hchk]
  cases hs : r.storage <;> cases hc : r.callback <;> simp [hs, hc]

/-- A rejected or panicking `SetFlag` leaves the state as it was. -/
theorem SetFlag_not_accepted (r : FFRepository) (fc : FeatureConfig)
    (h : (r.isFlagOutdated fc).1 ≠ .ok false) :
    (r.SetFlag fc false).2 = r := by
  have hst := isFlagOutdated_state r fc
  unfold SetFlag
  simp only [Bool.false_eq_true, if_false]
  cases hp : r.isFlagOutdated fc with
  | mk res r1 =>
    simp only [hp] at h hst
    cases res with
    | error f => simpa using hst
    | ok b =>
      cases b with
      | true => simpa using hst
      | false => exact absurd rfl h

theorem stored_eq_record (r : FFRepository) (key : String) (h : r.coherentAt key) :
    r.stored key = r.record key := by
  unfold coherentAt at h
  unfold stored record
  cases hs : r.storage with
  | none => cases hc : r.cache.Get key <;> simp
  | some st =>
    simp only [hs] at h
    cases hc : r.cache.Get key with
    | none => simp
    | some v =>
      rcases h with h | h
      · simp [hc] at h
      · simp [← h, hc]

theorem versionLE_refl (a : Option Int) : versionLE a a := by
  cases a <;> simp [versionLE]

theorem storedFlagVersion_le_of_not_outdated (r : FFRepository) (fc : FeatureConfig) (I : Int)
    (hI : fc.Version = some I) (h : (r.isFlagOutdated fc).1 = .ok false) :
    versionLE (r.storedFlagVersion fc.Feature) (some I) := by
  rw [isFlagOutdated_fst] at h
  unfold storedFlagVersion
  cases hv : r.stored (formatFlagKey fc.Feature) with
  | none => simp [versionLE]
  | some v =>
    cases v with
    | featureConfig old =>
      simp only [hv, hI] at h
      simp only []
      cases hS : old.Version with
      | none => simp [versionLE]
      | some S =>
        simp only [hS] at h
        have hlt : ¬ S ≥ I := by simpa using h
        simp only [versionLE]
        omega
    | segment x => simp [versionLE]
    | featureConfigs x => simp [versionLE]
    | segments x => simp [versionLE]

theorem recordVersion_eq_stored (r : FFRepository) (identifier : String)
    (h : r.coherentAt (formatFlagKey identifier)) :
    r.recordVersion identifier = r.storedFlagVersion identifier := by
  unfold recordVersion storedFlagVersion
  rw [stored_eq_record r _ h]

theorem versionLE_trans (a b c : Option Int) (h1 : versionLE a b) (h2 : versionLE b c) :
    versionLE a c := by
  cases a with
  | none => trivial
  | some x =>
    cases b with
    | none => exact absurd h1 (fun h => h)
    | some y =>
      cases c with
      | none => exact absurd h2 (fun h => h)
      | some z => exact Int.le_trans h1 h2

/-- One accepted, rejected or panicking `SetFlag(def, initialLoad=false)` on a
state where the version read by the staleness check is not below the version
in the tier of record: the version in the tier of record does not decrease,
and the new state is again of that kind. -/
theorem SetFlag_step_monotone (r : FFRepository) (fc : FeatureConfig) (I : Int)
    (hI : fc.Version = some I)
    (hread : versionLE (r.recordVersion fc.Feature) (r.storedFlagVersion fc.Feature)) :
    versionLE (r.recordVersion fc.Feature) ((r.SetFlag fc false).2.recordVersion fc.Feature) ∧
      versionLE ((r.SetFlag fc false).2.recordVersion fc.Feature)
        ((r.SetFlag fc false).2.storedFlagVersion fc.Feature) := by
  by_cases h : (r.isFlagOutdated fc).1 = .ok false
  · have hle := versionLE_trans _ _ _ hread (storedFlagVersion_le_of_not_outdated r fc I hI h)
    have hco : (r.SetFlag fc false).2.coherentAt (formatFlagKey fc.Feature) := by
      rw [SetFlag_accepted r fc false (Or.inr h)]
      cases hs : r.storage with
      | none => simp [coherentAt]
      | some st => simp [coherentAt, Cache.cache_Get_Remove_self]
    refine ⟨?_, ?_⟩
    · rw [SetFlag_accepted r fc false (Or.inr h)]
      cases hs : r.storage with
      | none =>
        simp only [recordVersion, record, hs] at hle ⊢
        simpa [Cache.cache_Get_Set_self, hI] using hle
      | some st =>
        by_cases hn : st.nextSucceeds
        · simp only [recordVersion, record, hs] at hle ⊢
          simpa [Storage.store_Get_Set_self st _ _ hn, hI] using hle
        · simp only [recordVersion, record, hs, Storage.Get,
            Storage.store_Set_failed st _ _ hn]
          exact versionLE_refl _
    · rw [recordVersion_eq_stored _ _ hco]
      exact versionLE_refl _
  · rw [SetFlag_not_accepted r fc h]
    exact ⟨versionLE_refl _, hread⟩

theorem traceSetFlag_head (r : FFRepository) (defs : List FeatureConfig) :
    (traceSetFlag r defs).head? = some r := by
  cases defs <;> simp [traceSetFlag]

theorem getSegmentAndCache_false_state (r : FFRepository) (identifier : String) :
    (r.getSegmentAndCache identifier false).2 = r := by
  unfold getSegmentAndCache
  simp only []
  split
  · split <;> rfl
  · split
    · split <;> split <;> simp
    · rfl

theorem getSegmentAndCache_false_result (r : FFRepository) (identifier : String) :
    (r.getSegmentAndCache identifier false).1 =
      match r.stored (formatSegmentKey identifier) with
      | some (.segment s) => .ok (.ok s)
      | some _ => .error .typeAssertion
      | none =>
        match r.storage with
        | some _ => .error .typeAssertion
        | none => .ok (.error { wraps := .ErrSegmentNotFound, identifier := identifier }) := by
  unfold getSegmentAndCache stored
  simp only []
  cases hc : r.cache.Get (formatSegmentKey identifier) with
  | some v => cases v <;> simp [assertSegment]
  | none =>
    cases hs : r.storage with
    | none => simp
    | some st =>
      cases hg : st.Get (formatSegmentKey identifier) with
      | none => simp [hg, assertSegment]
      | some v => cases v <;> simp [hg, assertSegment]

theorem isSegmentOutdated_state (r : FFRepository) (segment : Segment) :
    (r.isSegmentOutdated segment).2 = r := by
  have h := getSegmentAndCache_false_state r segment.Identifier
  unfold isSegmentOutdated
  split
  · next f r1 heq => simpa [heq] using h
  · next e r1 heq => simpa [heq] using h
  · next old r1 heq =>
    have h1 : r1 = r := by simpa [heq] using h
    split
    · exact h1
    · split <;> exact h1

theorem isSegmentOutdated_of_stale (r : FFRepository) (segment : Segment)
    (h : staleBySpec (r.storedSegmentVersion segment.Identifier) segment.Version = true) :
    r.isSegmentOutdated segment = (.ok true, r) := by
  have hr := getSegmentAndCache_false_result r segment.Identifier
  have hst := getSegmentAndCache_false_state r segment.Identifier
  unfold storedSegmentVersion at h
  cases hv : r.stored (formatSegmentKey segment.Identifier) with
  | none => simp [hv, staleBySpec] at h
  | some v =>
    cases v with
    | segment old =>
      simp only [hv] at h hr
      cases hS : old.Version with
      | none => simp [hS, staleBySpec] at h
      | some S =>
        cases hI : segment.Version with
        | none => simp [hS, hI, staleBySpec] at h
        | some I =>
          simp [hS, hI, staleBySpec] at h
          have hp := pair_eq (r.getSegmentAndCache segment.Identifier false) _ r hr hst
          simp [isSegmentOutdated, hp, hS, hI, h]
    | featureConfig x => simp [hv, staleBySpec] at h
    | featureConfigs l => simp [hv, staleBySpec] at h
    | segments l => simp [hv, staleBySpec] at h

/-- The batch check never changes the state, and with a stale element in the
batch it does not report the batch as fresh. -/
theorem areFlagsOutdated_of_stale (r : FFRepository) (flags : List FeatureConfig)
    (h : ∃ fc ∈ flags, staleBySpec (r.storedFlagVersion fc.Feature) fc.Version = true) :
    (r.areFlagsOutdated flags).2 = r ∧ (r.areFlagsOutdated flags).1 ≠ .ok false := by
  induction flags with
  | nil => simp at h
  | cons flag rest ih =>
    have hst := isFlagOutdated_state r flag
    unfold areFlagsOutdated
    cases hp : r.isFlagOutdated flag with
    | mk res r1 =>
      simp only [hp] at hst
      subst hst
      cases res with
      | error f => simp
      | ok b =>
        cases b with
        | true => simp
        | false =>
          simp only []
          apply ih
          obtain ⟨fc, hmem, hfc⟩ := h
          rcases List.mem_cons.mp hmem with heq | hin
          · subst heq
            have := isFlagOutdated_of_stale r1 fc hfc
            rw [hp] at this
            simp at this
          · exact ⟨fc, hin, hfc⟩

theorem areSegmentsOutdated_of_stale (r : FFRepository) (segments : List Segment)
    (h : ∃ s ∈ segments, staleBySpec (r.storedSegmentVersion s.Identifier) s.Version = true) :
    (r.areSegmentsOutdated segments).2 = r ∧ (r.areSegmentsOutdated segments).1 ≠ .ok false := by
  induction segments with
  | nil => simp at h
  | cons segment rest ih =>
    have hst := isSegmentOutdated_state r segment
    unfold areSegmentsOutdated
    cases hp : r.isSegmentOutdated segment with
    | mk res r1 =>
      simp only [hp] at hst
      subst hst
      cases res with
      | error f => simp
      | ok b =>
        cases b with
        | true => simp
        | false =>
          simp only []
          apply ih
          obtain ⟨s, hmem, hs⟩ := h
          rcases List.mem_cons.mp hmem with heq | hin
          · subst heq
            have := isSegmentOutdated_of_stale r1 s hs
            rw [hp] at this
            simp at this
          · exact ⟨s, hin, hs⟩

end FFRepository

/-! ## Lemmas on keys -/

theorem append_left_cancel (p a b : String) (h : p ++ a = p ++ b) : a = b := by
  have h2 := congrArg String.data h
  simp only [String.data_append] at h2
  exact String.ext (List.append_cancel_left h2)

theorem flagKey_ne_flagsKey (a b : String) : formatFlagKey a ≠ formatFlagsKey b := by
  intro h
  have h2 := congrArg String.data h
  simp [formatFlagKey, formatFlagsKey, String.data_append] at h2

theorem flagKey_ne_segmentKey (a b : String) : formatFlagKey a ≠ formatSegmentKey b := by
  intro h
  have h2 := congrArg String.data h
  simp [formatFlagKey, formatSegmentKey, String.data_append] at h2

theorem flagKey_ne_segmentsKey (a b : String) : formatFlagKey a ≠ formatSegmentsKey b := by
  intro h
  have h2 := congrArg String.data h
  simp [formatFlagKey, formatSegmentsKey, String.data_append] at h2

theorem flagsKey_ne_segmentKey (a b : String) : formatFlagsKey a ≠ formatSegmentKey b := by
  intro h
  have h2 := congrArg String.data h
  simp [formatFlagsKey, formatSegmentKey, String.data_append] at h2

theorem flagsKey_ne_segmentsKey (a b : String) : formatFlagsKey a ≠ formatSegmentsKey b := by
  intro h
  have h2 := congrArg String.data h
  simp [formatFlagsKey, formatSegmentsKey, String.data_append] at h2

theorem segmentKey_ne_segmentsKey (a b : String) :
    formatSegmentKey a ≠ formatSegmentsKey b := by
  intro h
  have h2 := congrArg String.data h
  simp [formatSegmentKey, formatSegmentsKey, String.data_append] at h2

/-! ## Frame lemmas on key-value lists and tiers -/

theorem lookup_unbind_other (key k : String) (l : List (String × Value)) (h : k ≠ key) :
    lookup k (unbind key l) = lookup k l := by
  induction l with
  | nil => rfl
  | cons e rest ih =>
    obtain ⟨k2, w⟩ := e
    by_cases hk : k2 = key
    · subst hk
      have hne : ¬ k2 = k := fun h2 => h h2.symm
      simp [unbind, lookup, hne, ih]
    · by_cases hk2 : k2 = k
      · subst hk2
        simp [unbind, lookup, hk]
      · simp [unbind, lookup, hk, hk2, ih]

theorem lookup_rebind_other (key k : String) (v : Value) (l : List (String × Value))
    (h : k ≠ key) : lookup k (rebind key v l) = lookup k l := by
  induction l with
  | nil => rfl
  | cons e rest ih =>
    obtain ⟨k2, w⟩ := e
    by_cases hk : k2 = key
    · subst hk
      have hne : ¬ k2 = k := fun h2 => h h2.symm
      simp [rebind, lookup, hne, ih]
    · by_cases hk2 : k2 = k
      · subst hk2
        simp [rebind, lookup, hk]
      · simp [rebind, lookup, hk, hk2, ih]

theorem lookup_append_other (key k : String) (v : Value) (l : List (String × Value))
    (h : k ≠ key) : lookup k (l ++ [(key, v)]) = lookup k l := by
  induction l with
  | nil =>
    have hne2 : ¬ key = k := fun h2 => h h2.symm
    simp [lookup, hne2]
  | cons e rest ih =>
    obtain ⟨k2, w⟩ := e
    by_cases hk2 : k2 = k
    · simp [lookup, hk2]
    · simp [lookup, hk2, ih]

theorem unbind_unbind (key : String) (l : List (String × Value)) :
    unbind key (unbind key l) = unbind key l := by
  induction l with
  | nil => rfl
  | cons e rest ih =>
    obtain ⟨k2, w⟩ := e
    by_cases hk : k2 = key
    · simp [unbind, hk, ih]
    · simp [unbind, hk, ih]

theorem Cache.cache_Get_Remove_other (c : Cache) (key k : String) (h : k ≠ key) :
    (c.Remove key).1.Get k = c.Get k := by
  simp [Cache.Remove, Cache.Get, lookup_unbind_other key k c.entries h]

theorem Cache.cache_Get_Set_other (c : Cache) (key k : String) (v : Value) (h : k ≠ key)
    (hkeep : (c.Set key v).2 = false) : (c.Set key v).1.Get k = c.Get k := by
  unfold Cache.Set at hkeep ⊢
  unfold Cache.Get
  by_cases h1 : (lookup key c.entries).isSome = true
  · simp [h1, lookup_rebind_other key k v c.entries h]
  · by_cases h2 : c.entries.length < c.capacity
    · simp [h1, h2, lookup_append_other key k v c.entries h]
    · simp [h1, h2] at hkeep

theorem Storage.store_Get_Set_other (s : Storage) (key k : String) (v : Value) (h : k ≠ key) :
    (s.Set key v).1.Get k = s.Get k := by
  unfold Storage.Set Storage.Get
  split
  · rfl
  · by_cases h1 : (lookup key s.data).isSome = true
    · simp [h1, lookup_rebind_other key k v s.data h]
    · simp [h1, lookup_append_other key k v s.data h]

theorem Storage.store_Get_Remove_other (s : Storage) (key k : String) (h : k ≠ key) :
    (s.Remove key).1.Get k = s.Get k := by
  unfold Storage.Remove Storage.Get
  split
  · rfl
  · simp [lookup_unbind_other key k s.data h]

theorem Storage.store_Set_result (s : Storage) (key : String) (v : Value)
    (h : ¬ s.nextSucceeds) : (s.Set key v).2 = true := by
  have hf : ∃ rest, s.faults = true :: rest := by
    unfold Storage.nextSucceeds at h
    cases hfa : s.faults with
    | nil => simp [hfa] at h
    | cons b rest =>
      cases b with
      | false => simp [hfa] at h
      | true => exact ⟨rest, rfl⟩
  obtain ⟨rest, hrest⟩ := hf
  simp [Storage.Set, hrest]

theorem Storage.store_Remove_cases (s : Storage) (key : String) :
    (s.nextSucceeds → (s.Remove key).1.data = unbind key s.data ∧ (s.Remove key).2 = false) ∧
      (¬ s.nextSucceeds → (s.Remove key).1.data = s.data ∧ (s.Remove key).2 = true) := by
  unfold Storage.nextSucceeds Storage.Remove
  cases hfa : s.faults with
  | nil => simp
  | cons b rest =>
    cases b with
    | false => simp
    | true => simp

/-! ## Lemmas on deletes, segment writes and collection writes -/

namespace FFRepository

theorem DeleteFlag_eq (r : FFRepository) (identifier : String) :
    r.DeleteFlag identifier =
      (.ok (),
        { cache := (r.cache.Remove (formatFlagKey identifier)).1,
          storage := r.storage.map (fun st => (st.Remove (formatFlagKey identifier)).1),
          callback := r.callback.map (fun seen => seen ++ [Event.OnFlagDeleted identifier]) }) := by
  unfold DeleteFlag
  cases hs : r.storage <;> cases hc : r.callback <;> simp [hs, hc]

theorem DeleteSegment_eq (r : FFRepository) (identifier : String) :
    r.DeleteSegment identifier =
      (.ok (),
        { cache := (r.cache.Remove (formatSegmentKey identifier)).1,
          storage := r.storage.map (fun st => (st.Remove (formatSegmentKey identifier)).1),
          callback :=
            r.callback.map (fun seen => seen ++ [Event.OnSegmentDeleted identifier]) }) := by
  unfold DeleteSegment
  cases hs : r.storage <;> cases hc : r.callback <;> simp [hs, hc]

/-- State reached by an accepted `SetSegment`, written out tier by tier. -/
theorem SetSegment_accepted (r : FFRepository) (segment : Segment) (initialLoad : Bool)
    (h : initialLoad = true ∨ (r.isSegmentOutdated segment).1 = .ok false) :
    r.SetSegment segment initialLoad =
      (.ok (),
        { cache :=
            match r.storage with
            | some _ => (r.cache.Remove (formatSegmentKey segment.Identifier)).1
            | none => (r.cache.Set (formatSegmentKey segment.Identifier) (.segment segment)).1,
          storage :=
            match r.storage with
            | some st => some (st.Set (formatSegmentKey segment.Identifier) (.segment segment)).1
            | none => none,
          callback :=
            match r.callback with
            | some seen => some (seen ++ [.OnSegmentStored segment.Identifier])
            | none => none }) := by
  have hchk : (if initialLoad = true then ((.ok false, r) : Except Fault Bool × FFRepository)
      else r.isSegmentOutdated segment) = (.ok false, r) := by
    cases initialLoad with
    | true => rfl
    | false =>
      rcases h with h | h
      · cases h
      · exact Prod.ext h (isSegmentOutdated_state r segment)
  unfold SetSegment
  simp only [hchk]
  cases hs : r.storage <;> cases hc : r.callback <;> simp [hs, hc]

/-- A rejected or panicking `SetSegment` leaves the state as it was. -/
theorem SetSegment_not_accepted (r : FFRepository) (segment : Segment)
    (h : (r.isSegmentOutdated segment).1 ≠ .ok false) :
    (r.SetSegment segment false).2 = r := by
  have hst := isSegmentOutdated_state r segment
  unfold SetSegment
  simp only [Bool.false_eq_true, if_false]
  cases hp : r.isSegmentOutdated segment with
  | mk res r1 =>
    simp only [hp] at h hst
    cases res with
    | error f => simpa using hst
    | ok b =>
      cases b with
      | true => simpa using hst
      | false => exact absurd rfl h

theorem areFlagsOutdated_state (r : FFRepository) (flags : List FeatureConfig) :
    (r.areFlagsOutdated flags).2 = r := by
  induction flags with
  | nil => rfl
  | cons flag rest ih =>
    have hst := isFlagOutdated_state r flag
    unfold areFlagsOutdated
    cases hp : r.isFlagOutdated flag with
    | mk res r1 =>
      simp only [hp] at hst
      subst hst
      cases res with
      | error f => rfl
      | ok b =>
        cases b with
        | true => rfl
        | false => exact ih

/-- State reached by an accepted `SetFlags`, written out tier by tier. -/
theorem SetFlags_accepted (r : FFRepository) (initialLoad : Bool) (envID : String)
    (flags : List FeatureConfig)
    (h : initialLoad = true ∨ (r.areFlagsOutdated flags).1 = .ok false) :
    r.SetFlags initialLoad envID flags =
      (.ok (),
        { cache :=
            match r.storage with
            | some _ => (r.cache.Remove (formatFlagsKey envID)).1
            | none => (r.cache.Set (formatFlagsKey envID) (.featureConfigs flags)).1,
          storage :=
            match r.storage with
            | some st => some (st.Set (formatFlagsKey envID) (.featureConfigs flags)).1
            | none => none,
          callback :=
            match r.callback with
            | some seen => some (seen ++ [.OnFlagsStored envID])
            | none => none }) := by
  have hchk : (if initialLoad = true then ((.ok false, r) : Except Fault Bool × FFRepository)
      else r.areFlagsOutdated flags) = (.ok false, r) := by
    cases initialLoad with
    | true => rfl
    | false =>
      rcases h with h | h
      · cases h
      · exact Prod.ext h (areFlagsOutdated_state r flags)
  unfold SetFlags
  simp only [hchk]
  cases hs : r.storage <;> cases hc : r.callback <;> simp [hs, hc]

/-- The result of the flag read path is determined by what the two tiers hold
for the flag key. -/
theorem getFlagAndCache_fst_congr (r r2 : FFRepository) (identifier : String)
    (cacheable : Bool)
    (h : r2.tiersAt (formatFlagKey identifier) = r.tiersAt (formatFlagKey identifier)) :
    (r2.getFlagAndCache identifier cacheable).1 = (r.getFlagAndCache identifier cacheable).1 := by
  unfold tiersAt at h
  obtain ⟨hc, hs⟩ := Prod.mk.inj h
  unfold getFlagAndCache
  simp only [hc]
  cases hg : r.cache.Get (formatFlagKey identifier) with
  | some v => cases v <;> simp [assertFeatureConfig]
  | none =>
    cases hs1 : r.storage with
    | none =>
      cases hs2 : r2.storage with
      | none => simp
      | some st2 => simp [hs1, hs2] at hs
    | some st =>
      cases hs2 : r2.storage with
      | none => simp [hs1, hs2] at hs
      | some st2 =>
        have hget : st2.Get (formatFlagKey identifier) = st.Get (formatFlagKey identifier) := by
          simpa [hs1, hs2] using hs
        simp only [hget]
        cases hv : st.Get (formatFlagKey identifier) with
        | none => simp [assertFeatureConfig]
        | some v => cases v <;> simp [assertFeatureConfig]

/-- The result of the segment read path is determined by what the two tiers
hold for the segment key. -/
theorem getSegmentAndCache_fst_congr (r r2 : FFRepository) (identifier : String)
    (cacheable : Bool)
    (h : r2.tiersAt (formatSegmentKey identifier) = r.tiersAt (formatSegmentKey identifier)) :
    (r2.getSegmentAndCache identifier cacheable).1
      = (r.getSegmentAndCache identifier cacheable).1 := by
  unfold tiersAt at h
  obtain ⟨hc, hs⟩ := Prod.mk.inj h
  unfold getSegmentAndCache
  simp only [hc]
  cases hg : r.cache.Get (formatSegmentKey identifier) with
  | some v => cases v <;> simp [assertSegment]
  | none =>
    cases hs1 : r.storage with
    | none =>
      cases hs2 : r2.storage with
      | none => simp
      | some st2 => simp [hs1, hs2] at hs
    | some st =>
      cases hs2 : r2.storage with
      | none => simp [hs1, hs2] at hs
      | some st2 =>
        have hget : st2.Get (formatSegmentKey identifier)
            = st.Get (formatSegmentKey identifier) := by
          simpa [hs1, hs2] using hs
        simp only [hget]
        cases hv : st.Get (formatSegmentKey identifier) with
        | none => simp [assertSegment]
        | some v => cases v <;> simp [assertSegment]

end FFRepository

/-! ## Lemmas on repeated deletes -/

theorem Cache.cache_Remove_Remove (c : Cache) (key : String) :
    ((c.Remove key).1.Remove key).1 = (c.Remove key).1 := by
  simp [Cache.Remove, unbind_unbind]

theorem Storage.store_Remove_Remove_data (s : Storage) (key : String)
    (h : s.nextSucceeds ∨ ¬ (s.Remove key).1.nextSucceeds) :
    ((s.Remove key).1.Remove key).1.data = (s.Remove key).1.data := by
  by_cases h2 : (s.Remove key).1.nextSucceeds
  · have h1 : s.nextSucceeds := by
      rcases h with h | h
      · exact h
      · exact absurd h2 h
    rw [((Storage.store_Remove_cases (s.Remove key).1 key).1 h2).1,
      ((Storage.store_Remove_cases s key).1 h1).1, unbind_unbind]
  · exact ((Storage.store_Remove_cases (s.Remove key).1 key).2 h2).1

theorem Storage.store_Get_Remove_self (s : Storage) (key : String) (h : s.nextSucceeds) :
    (s.Remove key).1.Get key = none := by
  unfold Storage.Get
  rw [((Storage.store_Remove_cases s key).1 h).1]
  exact lookup_unbind_self key s.data

/-! ## Frame lemmas on the operations -/

namespace FFRepository

theorem DeleteFlag_tiersAt_other (r : FFRepository) (identifier k : String)
    (h : k ≠ formatFlagKey identifier) :
    (r.DeleteFlag identifier).2.tiersAt k = r.tiersAt k := by
  rw [DeleteFlag_eq]
  cases hst : r.storage with
  | none => simp [tiersAt, hst, Cache.cache_Get_Remove_other _ _ _ h]
  | some st =>
    simp [tiersAt, hst, Cache.cache_Get_Remove_other _ _ _ h,
      Storage.store_Get_Remove_other st _ _ h]

theorem DeleteSegment_tiersAt_other (r : FFRepository) (identifier k : String)
    (h : k ≠ formatSegmentKey identifier) :
    (r.DeleteSegment identifier).2.tiersAt k = r.tiersAt k := by
  rw [DeleteSegment_eq]
  cases hst : r.storage with
  | none => simp [tiersAt, hst, Cache.cache_Get_Remove_other _ _ _ h]
  | some st =>
    simp [tiersAt, hst, Cache.cache_Get_Remove_other _ _ _ h,
      Storage.store_Get_Remove_other st _ _ h]

theorem SetFlag_tiersAt_other (r : FFRepository) (fc : FeatureConfig) (initialLoad : Bool)
    (k : String) (h : k ≠ formatFlagKey fc.Feature)
    (hkeep : r.storage.isSome = true ∨
      (r.cache.Set (formatFlagKey fc.Feature) (.featureConfig fc)).2 = false) :
    (r.SetFlag fc initialLoad).2.tiersAt k = r.tiersAt k := by
  by_cases hacc : initialLoad = true ∨ (r.isFlagOutdated fc).1 = .ok false
  · rw [SetFlag_accepted r fc initialLoad hacc]
    cases hst : r.storage with
    | none =>
      have hk : (r.cache.Set (formatFlagKey fc.Feature) (.featureConfig fc)).2 = false := by
        rcases hkeep with h1 | h1
        · simp [hst] at h1
        · exact h1
      simp [tiersAt, hst, Cache.cache_Get_Set_other _ _ _ _ h hk]
    | some st =>
      simp [tiersAt, hst, Cache.cache_Get_Remove_other _ _ _ h,
        Storage.store_Get_Set_other st _ _ _ h]
  · have hil : initialLoad = false := by
      cases initialLoad with
      | true => exact absurd (Or.inl rfl) hacc
      | false => rfl
    subst hil
    rw [SetFlag_not_accepted r fc (fun h2 => hacc (Or.inr h2))]

theorem SetSegment_tiersAt_other (r : FFRepository) (segment : Segment) (initialLoad : Bool)
    (k : String) (h : k ≠ formatSegmentKey segment.Identifier)
    (hkeep : r.storage.isSome = true ∨
      (r.cache.Set (formatSegmentKey segment.Identifier) (.segment segment)).2 = false) :
    (r.SetSegment segment initialLoad).2.tiersAt k = r.tiersAt k := by
  by_cases hacc : initialLoad = true ∨ (r.isSegmentOutdated segment).1 = .ok false
  · rw [SetSegment_accepted r segment initialLoad hacc]
    cases hst : r.storage with
    | none =>
      have hk : (r.cache.Set (formatSegmentKey segment.Identifier) (.segment segment)).2
          = false := by
        rcases hkeep with h1 | h1
        · simp [hst] at h1
        · exact h1
      simp [tiersAt, hst, Cache.cache_Get_Set_other _ _ _ _ h hk]
    | some st =>
      simp [tiersAt, hst, Cache.cache_Get_Remove_other _ _ _ h,
        Storage.store_Get_Set_other st _ _ _ h]
  · have hil : initialLoad = false := by
      cases initialLoad with
      | true => exact absurd (Or.inl rfl) hacc
      | false => rfl
    subst hil
    rw [SetSegment_not_accepted r segment (fun h2 => hacc (Or.inr h2))]

theorem SetFlags_tiersAt_other (r : FFRepository) (initialLoad : Bool) (envID : String)
    (flags : List FeatureConfig) (k : String) (h : k ≠ formatFlagsKey envID)
    (hacc : initialLoad = true ∨ (r.areFlagsOutdated flags).1 = .ok false)
    (hkeep : r.storage.isSome = true ∨
      (r.cache.Set (formatFlagsKey envID) (.featureConfigs flags)).2 = false) :
    (r.SetFlags initialLoad envID flags).2.tiersAt k = r.tiersAt k := by
  rw [SetFlags_accepted r initialLoad envID flags hacc]
  cases hst : r.storage with
  | none =>
    have hk : (r.cache.Set (formatFlagsKey envID) (.featureConfigs flags)).2 = false := by
      rcases hkeep with h1 | h1
      · simp [hst] at h1
      · exact h1
    simp [tiersAt, hst, Cache.cache_Get_Set_other _ _ _ _ h hk]
  | some st =>
    simp [tiersAt, hst, Cache.cache_Get_Remove_other _ _ _ h,
      Storage.store_Get_Set_other st _ _ _ h]

theorem isFlagOutdated_fst_congr (r r2 : FFRepository) (fc : FeatureConfig)
    (h : r2.tiersAt (formatFlagKey fc.Feature) = r.tiersAt (formatFlagKey fc.Feature)) :
    (r2.isFlagOutdated fc).1 = (r.isFlagOutdated fc).1 := by
  have h1 := getFlagAndCache_fst_congr r r2 fc.Feature false h
  unfold isFlagOutdated
  cases hp : r.getFlagAndCache fc.Feature false with
  | mk a b =>
    cases hp2 : r2.getFlagAndCache fc.Feature false with
    | mk a2 b2 =>
      simp only [hp, hp2] at h1
      subst h1
      cases a2 with
      | error f => rfl
      | ok e =>
        cases e with
        | error w => rfl
        | ok old =>
          simp only []
          cases old.Version with
          | none => rfl
          | some S =>
            simp only []
            cases fc.Version with
            | none => rfl
            | some I => rfl

theorem areFlagsOutdated_fst_congr (r r2 : FFRepository) (flags : List FeatureConfig)
    (h : ∀ fc ∈ flags,
      r2.tiersAt (formatFlagKey fc.Feature) = r.tiersAt (formatFlagKey fc.Feature)) :
    (r2.areFlagsOutdated flags).1 = (r.areFlagsOutdated flags).1 := by
  induction flags with
  | nil => rfl
  | cons flag rest ih =>
    have h1 := isFlagOutdated_fst_congr r r2 flag (h flag (List.mem_cons_self _ _))
    have hs := isFlagOutdated_state r flag
    have hs2 := isFlagOutdated_state r2 flag
    have hrest := ih (fun fc hfc => h fc (List.mem_cons_of_mem _ hfc))
    unfold areFlagsOutdated
    cases hp : r.isFlagOutdated flag with
    | mk a b =>
      cases hp2 : r2.isFlagOutdated flag with
      | mk a2 b2 =>
        simp only [hp, hp2] at h1 hs hs2
        subst h1 hs hs2
        cases a2 with
        | error f => rfl
        | ok d =>
          cases d with
          | true => rfl
          | false => exact hrest

end FFRepository

/-! ## Claims -/

open FFRepository

/-- C1: for every repository state (cache only or with a store, with or without
a callback) and every flag definition whose version is present, if the
definition found for its identifier has a present version greater than or equal
to the incoming one, then `SetFlag(def, initialLoad=false)` returns normally and
leaves the whole state as it was: same cache, same store, same callback record. -/
theorem SetFlag_stale_noop (r : FFRepository) (featureConfig : FeatureConfig)
    (h : staleBySpec (r.storedFlagVersion featureConfig.Feature) featureConfig.Version = true) :
    r.SetFlag featureConfig false = (.ok (), r) := by
  simp [SetFlag, isFlagOutdated_of_stale r featureConfig h]

/-- Witness of C1: the equal-version write on a store-backed repository with a
callback. -/
theorem SetFlag_stale_noop_witness :
    staleBySpec (storeAt5.storedFlagVersion "x") (some 5) = true ∧
      storeAt5.SetFlag (flagX (some 5)) false = (.ok (), storeAt5) :=
  ⟨by decide, SetFlag_stale_noop storeAt5 (flagX (some 5)) (by decide)⟩

/-- C2 as stated fails: from a state whose cache holds flag `x` at version 1
while the store, the tier of record, holds it at version 5, the call
`SetFlag(x at version 3, initialLoad=false)` is checked against the cache entry,
is accepted, and lowers the version in the tier of record from 5 to 3. -/
theorem SetFlag_version_not_monotone_cache_behind :
    ¬ List.Chain' (fun a b => versionLE (a.recordVersion "x") (b.recordVersion "x"))
        (traceSetFlag cacheBehindStore [flagX (some 3)]) := by
  have h1 : cacheBehindStore.recordVersion "x" = some 5 := by decide
  have h2 : (cacheBehindStore.SetFlag (flagX (some 3)) false).2.recordVersion "x" = some 3 := by
    decide
  simp only [traceSetFlag, List.chain'_cons, List.chain'_singleton, and_true, h1, h2, versionLE]
  decide

/-- C2, amended: for every initial state in which the version that the
staleness check reads for the identifier (cache first, then store) is not below
the version held by the tier of record (so whenever no store is configured, or
the cache has no entry for `flag/<identifier>`, or the same entry as the store)
and every finite sequence of `SetFlag(def, initialLoad=false)` calls on that
identifier with present versions, the version held by the tier of record never
decreases from one state of the run to the next. -/
theorem SetFlag_version_monotone (r : FFRepository) (identifier : String)
    (defs : List FeatureConfig)
    (hdefs : ∀ fc ∈ defs, fc.Feature = identifier ∧ fc.Version.isSome = true)
    (hread : versionLE (r.recordVersion identifier) (r.storedFlagVersion identifier)) :
    List.Chain' (fun a b => versionLE (a.recordVersion identifier) (b.recordVersion identifier))
      (traceSetFlag r defs) := by
  induction defs generalizing r with
  | nil => simp [traceSetFlag]
  | cons fc rest ih =>
    obtain ⟨hF, hV⟩ := hdefs fc (List.mem_cons_self _ _)
    obtain ⟨I, hI⟩ := Option.isSome_iff_exists.mp hV
    subst hF
    obtain ⟨hle, hread2⟩ := SetFlag_step_monotone r fc I hI hread
    have hrest := ih (r.SetFlag fc false).2
      (fun g hg => hdefs g (List.mem_cons_of_mem _ hg)) hread2
    simp only [traceSetFlag]
    rw [List.chain'_cons']
    refine ⟨?_, hrest⟩
    intro y hy
    rw [traceSetFlag_head] at hy
    cases hy
    exact hle

/-- Witness of C2 amended: four writes at versions 7, 6, 9 and 8 on a repository
whose cache is ahead of its store and whose store rejects the second accepted
write. -/
theorem SetFlag_version_monotone_witness :
    versionLE (cacheAheadOfStore.recordVersion "x") (cacheAheadOfStore.storedFlagVersion "x") ∧
      List.Chain' (fun a b => versionLE (a.recordVersion "x") (b.recordVersion "x"))
        (traceSetFlag cacheAheadOfStore
          [flagX (some 7), flagX (some 6), flagX (some 9), flagX (some 8)]) :=
  ⟨by decide,
    SetFlag_version_monotone cacheAheadOfStore "x"
      [flagX (some 7), flagX (some 6), flagX (some 9), flagX (some 8)]
      (by
        intro fc hfc
        simp only [List.mem_cons, List.mem_singleton, List.not_mem_nil, or_false] at hfc
        rcases hfc with h | h | h | h <;> subst h <;> exact ⟨rfl, rfl⟩)
      (by decide)⟩

/-- C3, evaluated at the failing input: with a definition stored at version 5
and an incoming definition that carries no version, `isFlagOutdated` does not
report non-stale; it dereferences the absent incoming version and panics. The
same holds for `isSegmentOutdated`. -/
theorem isOutdated_absent_incoming_version_panics :
    cacheOnlyAt5.isFlagOutdated (flagX none) = (.error .nilDereference, cacheOnlyAt5) ∧
      cacheOnlySegmentAt5.isSegmentOutdated (segmentX none)
        = (.error .nilDereference, cacheOnlySegmentAt5) := by
  decide

/-- C4, evaluated at the failing input: with a store configured and the key
absent from both tiers, `GetFlag` and `GetSegment` do not return a not-found
error; the unchecked type assertion on the missing store value panics. The
cache-only path does return the wrapped not-found error with the identifier. -/
theorem Get_absent_with_store_panics :
    (emptyWithStore.GetFlag "x" = (.error .typeAssertion, emptyWithStore) ∧
      emptyWithStore.GetSegment "x" = (.error .typeAssertion, emptyWithStore)) ∧
    ((New emptyCache).GetFlag "x"
        = (.ok (.error { wraps := .ErrFeatureConfigNotFound, identifier := "x" }),
            New emptyCache) ∧
      (New emptyCache).GetSegment "x"
        = (.ok (.error { wraps := .ErrSegmentNotFound, identifier := "x" }),
            New emptyCache)) := by
  decide

/-- Round trip whenever the write goes through: after an initial load, or after
a staleness check that completed and reported the write as not stale, on a
cache-only repository or on one whose store accepts the `Set`, the call returns
normally and the next `GetFlag` on the same identifier returns exactly the
definition written, with no error. -/
theorem round_trip_when_check_completes (r : FFRepository) (featureConfig : FeatureConfig)
    (initialLoad : Bool)
    (hacc : initialLoad = true ∨ (r.isFlagOutdated featureConfig).1 = .ok false)
    (hset : ∀ st, r.storage = some st → st.nextSucceeds) :
    (r.SetFlag featureConfig initialLoad).1 = .ok () ∧
      ((r.SetFlag featureConfig initialLoad).2.GetFlag featureConfig.Feature).1
        = .ok (.ok featureConfig) := by
  rw [SetFlag_accepted r featureConfig initialLoad hacc]
  refine ⟨rfl, ?_⟩
  cases hs : r.storage with
  | none =>
    simp [GetFlag, getFlagAndCache, Cache.cache_Get_Set_self, assertFeatureConfig]
  | some st =>
    have hn := hset st hs
    simp [GetFlag, getFlagAndCache, Cache.cache_Get_Remove_self,
      Storage.store_Get_Set_self st _ _ hn, assertFeatureConfig]

/-- C5, evaluated at the failing inputs: a write with `initialLoad=false` that
is not stale by the comparator of the spec is not always read back. On a
repository with an empty cache and an empty store whose `Set` would succeed,
the first write of flag `x` at version 1 is not stale, yet `SetFlag` panics in
the staleness check on the unchecked type assertion, stores nothing, and the
next `GetFlag("x")` panics too instead of returning the definition. On a
cache-only repository holding `x` at version 5, a write of `x` without version
is not stale, yet `SetFlag` panics on the nil dereference and the next
`GetFlag("x")` still returns the old definition. -/
theorem SetFlag_not_stale_write_not_read_back :
    (staleBySpec (emptyWithStore.storedFlagVersion "x") (flagX (some 1)).Version = false ∧
        emptyWithStore.SetFlag (flagX (some 1)) false
          = (.error .typeAssertion, emptyWithStore) ∧
        ((emptyWithStore.SetFlag (flagX (some 1)) false).2.GetFlag "x").1
          = .error .typeAssertion) ∧
      (staleBySpec (cacheOnlyAt5.storedFlagVersion "x") (flagX none).Version = false ∧
        cacheOnlyAt5.SetFlag (flagX none) false = (.error .nilDereference, cacheOnlyAt5) ∧
        ((cacheOnlyAt5.SetFlag (flagX none) false).2.GetFlag "x").1
          = .ok (.ok (flagX (some 5))) ∧
        flagX (some 5) ≠ flagX none) := by
  decide

/-- C6: `SetFlag(def, initialLoad=true)` never consults what is stored: for
every state and every definition, whatever its version, the call returns
normally and a configured callback receives `OnFlagStored(def.Feature)` as its
latest notification; and when no store is configured or the store accepts the
`Set`, the tier of record then holds exactly `def` under `flag/<def.Feature>`. -/
theorem SetFlag_initialLoad_overwrites (r : FFRepository) (featureConfig : FeatureConfig) :
    (r.SetFlag featureConfig true).1 = .ok () ∧
      (r.SetFlag featureConfig true).2.callback
        = r.callback.map (fun seen => seen ++ [Event.OnFlagStored featureConfig.Feature]) ∧
      ((∀ st, r.storage = some st → st.nextSucceeds) →
        (r.SetFlag featureConfig true).2.record (formatFlagKey featureConfig.Feature)
          = some (.featureConfig featureConfig)) := by
  rw [SetFlag_accepted r featureConfig true (Or.inl rfl)]
  refine ⟨rfl, ?_, ?_⟩
  · cases r.callback <;> rfl
  · intro hset
    cases hs : r.storage with
    | none => simp [record, Cache.cache_Get_Set_self]
    | some st => simp [record, Storage.store_Get_Set_self st _ _ (hset st hs)]

/-- Witness of C6: an initial-load write at version 1 replaces version 5 in
the store and notifies the callback. -/
theorem SetFlag_initialLoad_overwrites_witness :
    storeAt5.recordVersion "x" = some 5 ∧
      (storeAt5.SetFlag (flagX (some 1)) true).1 = .ok () ∧
      (storeAt5.SetFlag (flagX (some 1)) true).2.callback = some [Event.OnFlagStored "x"] ∧
      (storeAt5.SetFlag (flagX (some 1)) true).2.record (formatFlagKey "x")
        = some (.featureConfig (flagX (some 1))) :=
  ⟨by decide,
    (SetFlag_initialLoad_overwrites storeAt5 (flagX (some 1))).1,
    (SetFlag_initialLoad_overwrites storeAt5 (flagX (some 1))).2.1,
    (SetFlag_initialLoad_overwrites storeAt5 (flagX (some 1))).2.2
      (by intro st hst; cases hst; simp [Storage.nextSucceeds])⟩

/-- C7: batch atomicity. For every state, environment id and batch, if at
least one element of the batch is stale relative to the definition found for
its identifier (both versions present, stored ≥ incoming), then
`SetFlags(initialLoad=false, envID, batch)` ends in the state it started from:
nothing is stored under `flags/<envID>` or under any element key, in either
tier, and no callback is fired. The same holds for `SetSegments`. -/
theorem SetFlags_SetSegments_stale_batch_rejected (r : FFRepository) (envID : String) :
    (∀ flags : List FeatureConfig,
        (∃ fc ∈ flags, staleBySpec (r.storedFlagVersion fc.Feature) fc.Version = true) →
        (r.SetFlags false envID flags).2 = r) ∧
      (∀ segments : List Segment,
        (∃ s ∈ segments, staleBySpec (r.storedSegmentVersion s.Identifier) s.Version = true) →
        (r.SetSegments false envID segments).2 = r) := by
  constructor
  · intro flags hflags
    obtain ⟨hst, hres⟩ := areFlagsOutdated_of_stale r flags hflags
    unfold SetFlags
    simp only [Bool.false_eq_true, if_false]
    cases hp : r.areFlagsOutdated flags with
    | mk res r1 =>
      simp only [hp] at hst hres
      subst hst
      cases res with
      | error f => rfl
      | ok b =>
        cases b with
        | true => rfl
        | false => exact absurd rfl hres
  · intro segments hsegments
    obtain ⟨hst, hres⟩ := areSegmentsOutdated_of_stale r segments hsegments
    unfold SetSegments
    simp only [Bool.false_eq_true, if_false]
    cases hp : r.areSegmentsOutdated segments with
    | mk res r1 =>
      simp only [hp] at hst hres
      subst hst
      cases res with
      | error f => rfl
      | ok b =>
        cases b with
        | true => rfl
        | false => exact absurd rfl hres

/-- Witness of C7: the batch `[f1 at 1, f2 at 5]` against a stored `f2` at
version 5 (and likewise for segments) is rejected as a whole. -/
theorem SetFlags_SetSegments_stale_batch_rejected_witness :
    (holdsSecondAt5.SetFlags false "env"
        [flagNamed "f1" (some 1), flagNamed "f2" (some 5)]).2 = holdsSecondAt5 ∧
      (holdsSecondAt5.SetSegments false "env"
        [segmentNamed "s1" (some 1), segmentNamed "s2" (some 5)]).2 = holdsSecondAt5 :=
  ⟨(SetFlags_SetSegments_stale_batch_rejected holdsSecondAt5 "env").1
      [flagNamed "f1" (some 1), flagNamed "f2" (some 5)]
      ⟨flagNamed "f2" (some 5), by simp, by decide⟩,
    (SetFlags_SetSegments_stale_batch_rejected holdsSecondAt5 "env").2
      [segmentNamed "s1" (some 1), segmentNamed "s2" (some 5)]
      ⟨segmentNamed "s2" (some 5), by simp, by decide⟩⟩

/-- C8: tier exclusivity. With a store configured, right after an accepted
`SetFlag(def, _)` the cache has no entry for `flag/<def.Feature>`, whatever the
cache held before and whether or not the store accepted the `Set`; and the
staleness check leaves the whole state, the cache included, as it was. -/
theorem SetFlag_evicts_cache_entry (r : FFRepository) (st : Storage)
    (featureConfig : FeatureConfig) (hstore : r.storage = some st) :
    (∀ initialLoad : Bool,
        (initialLoad = true ∨ (r.isFlagOutdated featureConfig).1 = .ok false) →
        (r.SetFlag featureConfig initialLoad).2.cache.Get
            (formatFlagKey featureConfig.Feature) = none ∧
          (r.SetFlag featureConfig initialLoad).2.cache.Contains
            (formatFlagKey featureConfig.Feature) = false) ∧
      (r.isFlagOutdated featureConfig).2 = r := by
  refine ⟨?_, isFlagOutdated_state r featureConfig⟩
  intro initialLoad hacc
  rw [SetFlag_accepted r featureConfig initialLoad hacc]
  simp [hstore, Cache.Contains, Cache.cache_Get_Remove_self]

/-- Witness of C8: the cache holds `flag/x`, the store rejects the `Set`, and
the key is gone from the cache after the accepted write. -/
theorem SetFlag_evicts_cache_entry_witness :
    cachedWithFailingStore.cache.Contains (formatFlagKey "x") = true ∧
      ((cachedWithFailingStore.SetFlag (flagX (some 3)) false).2.cache.Get (formatFlagKey "x")
          = none ∧
        (cachedWithFailingStore.SetFlag (flagX (some 3)) false).2.cache.Contains
          (formatFlagKey "x") = false) ∧
      (cachedWithFailingStore.isFlagOutdated (flagX (some 3))).2 = cachedWithFailingStore :=
  ⟨by decide,
    (SetFlag_evicts_cache_entry cachedWithFailingStore { data := [], faults := [true] }
      (flagX (some 3)) rfl).1 false (Or.inr (by decide)),
    (SetFlag_evicts_cache_entry cachedWithFailingStore { data := [], faults := [true] }
      (flagX (some 3)) rfl).2⟩

/-- C9: cache fill on miss. With a store configured, when `flag/<identifier>` is
absent from the cache and the store holds the flag definition `v` for it,
`GetFlag(identifier)` returns `v` with no error, afterwards the cache maps the
key to `v`, and the store and the callback record are unchanged. The same
holds for `GetSegment` with `target-segment/<identifier>`. -/
theorem Get_fills_cache_on_miss (r : FFRepository) (st : Storage) (identifier : String)
    (hstore : r.storage = some st) :
    (∀ v : FeatureConfig,
        r.cache.Get (formatFlagKey identifier) = none →
        st.Get (formatFlagKey identifier) = some (.featureConfig v) →
        (r.GetFlag identifier).1 = .ok (.ok v) ∧
          (r.GetFlag identifier).2.cache.Get (formatFlagKey identifier)
            = some (.featureConfig v) ∧
          (r.GetFlag identifier).2.storage = r.storage ∧
          (r.GetFlag identifier).2.callback = r.callback) ∧
      (∀ w : Segment,
        r.cache.Get (formatSegmentKey identifier) = none →
        st.Get (formatSegmentKey identifier) = some (.segment w) →
        (r.GetSegment identifier).1 = .ok (.ok w) ∧
          (r.GetSegment identifier).2.cache.Get (formatSegmentKey identifier)
            = some (.segment w) ∧
          (r.GetSegment identifier).2.storage = r.storage ∧
          (r.GetSegment identifier).2.callback = r.callback) := by
  constructor
  · intro v hmiss hhit
    simp [GetFlag, getFlagAndCache, hstore, hmiss, hhit, assertFeatureConfig,
      Cache.cache_Get_Set_self]
  · intro w hmiss hhit
    simp [GetSegment, getSegmentAndCache, hstore, hmiss, hhit, assertSegment,
      Cache.cache_Get_Set_self]

/-- Witness of C9: flag `x` and segment `x` are read from the store into an
empty cache. -/
theorem Get_fills_cache_on_miss_witness :
    ((storeFilled.GetFlag "x").1 = .ok (.ok (flagX (some 5))) ∧
        (storeFilled.GetFlag "x").2.cache.Get (formatFlagKey "x")
          = some (.featureConfig (flagX (some 5))) ∧
        (storeFilled.GetFlag "x").2.storage = storeFilled.storage ∧
        (storeFilled.GetFlag "x").2.callback = storeFilled.callback) ∧
      ((storeFilled.GetSegment "x").1 = .ok (.ok (segmentX (some 5))) ∧
        (storeFilled.GetSegment "x").2.cache.Get (formatSegmentKey "x")
          = some (.segment (segmentX (some 5))) ∧
        (storeFilled.GetSegment "x").2.storage = storeFilled.storage ∧
        (storeFilled.GetSegment "x").2.callback = storeFilled.callback) :=
  ⟨(Get_fills_cache_on_miss storeFilled
      { data := [(formatFlagKey "x", .featureConfig (flagX (some 5))),
                 (formatSegmentKey "x", .segment (segmentX (some 5)))],
        faults := [true] } "x" rfl).1 (flagX (some 5)) (by decide) (by decide),
    (Get_fills_cache_on_miss storeFilled
      { data := [(formatFlagKey "x", .featureConfig (flagX (some 5))),
                 (formatSegmentKey "x", .segment (segmentX (some 5)))],
        faults := [true] } "x" rfl).2 (segmentX (some 5)) (by decide) (by decide)⟩

/-- C10, evaluated at the failing input: with a store configured and
`flag/x` absent from both tiers, `SetFlag(x at version 1, initialLoad=false)`
is not accepted; the staleness check panics on the unchecked type assertion,
nothing is stored and no callback is fired. On the cache-only repository the
same first-ever write is accepted and stored. -/
theorem SetFlag_first_ever_with_store_panics :
    (NewWithStorageAndCallback emptyCache emptyStore).SetFlag (flagX (some 1)) false
        = (.error .typeAssertion, NewWithStorageAndCallback emptyCache emptyStore) ∧
      (New emptyCache).SetFlag (flagX (some 1)) false
        = (.ok (), New { capacity := 2,
                         entries := [(formatFlagKey "x", .featureConfig (flagX (some 1)))] }) := by
  decide

/-- C11, evaluated at the failing input: an accepted `SetSegments` on a
repository with a callback fires one notification, but it is the flag
collection notification `OnFlagsStored(envID)`, not `OnSegmentsStored(envID)`,
both cache-only and with a store. An accepted `SetFlags` fires exactly
`OnFlagsStored(envID)`. -/
theorem SetSegments_fires_flags_notification :
    (cacheOnlyObserved.SetSegments true "env" [segmentX (some 1)]).2.callback
        = some [Event.OnFlagsStored "env"] ∧
      (emptyObserved.SetSegments true "env" [segmentX (some 1)]).2.callback
        = some [Event.OnFlagsStored "env"] ∧
      (cacheOnlyObserved.SetSegments true "env" [segmentX (some 1)]).2.callback
        ≠ some [Event.OnSegmentsStored "env"] ∧
      (cacheOnlyObserved.SetFlags true "env" [flagX (some 1)]).2.callback
        = some [Event.OnFlagsStored "env"] := by
  decide

/-- C12: store failures are absorbed. On a repository with a store and a
callback, when the store rejects the call: an accepted `SetFlag(def, _)` still
returns normally, leaves `flag/<def.Feature>` absent from the cache and fires
`OnFlagStored(def.Feature)`; and `DeleteFlag(id)` still returns normally, leaves
`flag/<id>` absent from the cache and fires `OnFlagDeleted(id)`. -/
theorem store_failures_absorbed (r : FFRepository) (st : Storage) (seen : List Event)
    (hstore : r.storage = some st) (hcallback : r.callback = some seen)
    (hfail : ¬ st.nextSucceeds) :
    (∀ (featureConfig : FeatureConfig) (initialLoad : Bool),
        (initialLoad = true ∨ (r.isFlagOutdated featureConfig).1 = .ok false) →
        (st.Set (formatFlagKey featureConfig.Feature) (.featureConfig featureConfig)).2 = true ∧
          (r.SetFlag featureConfig initialLoad).1 = .ok () ∧
          (r.SetFlag featureConfig initialLoad).2.cache.Get
            (formatFlagKey featureConfig.Feature) = none ∧
          (r.SetFlag featureConfig initialLoad).2.callback
            = some (seen ++ [Event.OnFlagStored featureConfig.Feature])) ∧
      (∀ identifier : String,
        (st.Remove (formatFlagKey identifier)).2 = true ∧
          (r.DeleteFlag identifier).1 = .ok () ∧
          (r.DeleteFlag identifier).2.cache.Get (formatFlagKey identifier) = none ∧
          (r.DeleteFlag identifier).2.callback
            = some (seen ++ [Event.OnFlagDeleted identifier])) := by
  constructor
  · intro featureConfig initialLoad hacc
    rw [SetFlag_accepted r featureConfig initialLoad hacc]
    refine ⟨Storage.store_Set_result st _ _ hfail, rfl, ?_, ?_⟩
    · simp [hstore, Cache.cache_Get_Remove_self]
    · simp [hcallback]
  · intro identifier
    rw [DeleteFlag_eq]
    refine ⟨((Storage.store_Remove_cases st _).2 hfail).2, rfl, ?_, ?_⟩
    · simp [Cache.cache_Get_Remove_self]
    · simp [hcallback]

/-- Witness of C12: a newer write and a delete on a repository whose store has
failed the call. -/
theorem store_failures_absorbed_witness :
    ((observedFailingStore.SetFlag (flagX (some 2)) false).1 = .ok () ∧
        (observedFailingStore.SetFlag (flagX (some 2)) false).2.cache.Get (formatFlagKey "x")
          = none ∧
        (observedFailingStore.SetFlag (flagX (some 2)) false).2.callback
          = some ([] ++ [Event.OnFlagStored "x"])) ∧
      ((observedFailingStore.DeleteFlag "x").1 = .ok () ∧
        (observedFailingStore.DeleteFlag "x").2.cache.Get (formatFlagKey "x") = none ∧
        (observedFailingStore.DeleteFlag "x").2.callback
          = some ([] ++ [Event.OnFlagDeleted "x"])) :=
  ⟨((store_failures_absorbed observedFailingStore
        { data := [(formatFlagKey "x", .featureConfig (flagX (some 1)))], faults := [true] }
        [] rfl rfl (by simp [Storage.nextSucceeds])).1 (flagX (some 2)) false (Or.inr (by decide))).2,
    ((store_failures_absorbed observedFailingStore
        { data := [(formatFlagKey "x", .featureConfig (flagX (some 1)))], faults := [true] }
        [] rfl rfl (by simp [Storage.nextSucceeds])).2 "x").2⟩

/-- C13 as stated fails: when the store rejects the `Remove` of the first
`DeleteFlag("x")` and accepts the one of the second, the second call removes
`flag/x` from the store, so the tier contents after two calls differ from the
tier contents after one. -/
theorem DeleteFlag_twice_differs_after_failed_Remove :
    ((storeFilled.DeleteFlag "x").2.DeleteFlag "x").2.contents
        ≠ (storeFilled.DeleteFlag "x").2.contents ∧
      (storeFilled.DeleteFlag "x").2.record (formatFlagKey "x")
        = some (.featureConfig (flagX (some 5))) ∧
      ((storeFilled.DeleteFlag "x").2.DeleteFlag "x").2.record (formatFlagKey "x") = none := by
  decide

/-- C13, amended: for every state and identifier, `DeleteFlag(id)` returns
normally, leaves `flag/<id>` absent from the cache and, when the store accepts
the `Remove`, from the store, and a configured callback receives exactly one
more notification, `OnFlagDeleted(id)`. A second `DeleteFlag(id)` leaves the
cache as the first one left it, and leaves the contents of both tiers as the
first one left them unless the store rejected the first `Remove` and accepts the
second. The same holds for `DeleteSegment` with `OnSegmentDeleted`. -/
theorem Delete_unconditional_idempotent (r : FFRepository) (identifier : String) :
    ((r.DeleteFlag identifier).1 = .ok () ∧
        (r.DeleteFlag identifier).2.cache.Get (formatFlagKey identifier) = none ∧
        (∀ st, r.storage = some st → st.nextSucceeds →
          (r.DeleteFlag identifier).2.record (formatFlagKey identifier) = none) ∧
        (r.DeleteFlag identifier).2.callback
          = r.callback.map (fun seen => seen ++ [Event.OnFlagDeleted identifier]) ∧
        ((r.DeleteFlag identifier).2.DeleteFlag identifier).2.cache
          = (r.DeleteFlag identifier).2.cache ∧
        ((∀ st, r.storage = some st →
            st.nextSucceeds ∨ ¬ (st.Remove (formatFlagKey identifier)).1.nextSucceeds) →
          ((r.DeleteFlag identifier).2.DeleteFlag identifier).2.contents
            = (r.DeleteFlag identifier).2.contents)) ∧
      ((r.DeleteSegment identifier).1 = .ok () ∧
        (r.DeleteSegment identifier).2.cache.Get (formatSegmentKey identifier) = none ∧
        (∀ st, r.storage = some st → st.nextSucceeds →
          (r.DeleteSegment identifier).2.record (formatSegmentKey identifier) = none) ∧
        (r.DeleteSegment identifier).2.callback
          = r.callback.map (fun seen => seen ++ [Event.OnSegmentDeleted identifier]) ∧
        ((r.DeleteSegment identifier).2.DeleteSegment identifier).2.cache
          = (r.DeleteSegment identifier).2.cache ∧
        ((∀ st, r.storage = some st →
            st.nextSucceeds ∨ ¬ (st.Remove (formatSegmentKey identifier)).1.nextSucceeds) →
          ((r.DeleteSegment identifier).2.DeleteSegment identifier).2.contents
            = (r.DeleteSegment identifier).2.contents)) := by
  constructor
  · refine ⟨?_, ?_, ?_, ?_, ?_, ?_⟩
    · rw [DeleteFlag_eq]
    · rw [DeleteFlag_eq]
      exact Cache.cache_Get_Remove_self _ _
    · intro st hst hok
      rw [DeleteFlag_eq]
      simp [record, hst, Storage.store_Get_Remove_self st _ hok]
    · rw [DeleteFlag_eq]
    · simp only [DeleteFlag_eq]
      exact Cache.cache_Remove_Remove _ _
    · intro h
      simp only [DeleteFlag_eq]
      cases hst : r.storage with
      | none => simp [contents, Cache.cache_Remove_Remove]
      | some st =>
        simp [contents, Cache.cache_Remove_Remove,
          Storage.store_Remove_Remove_data st _ (h st hst)]
  · refine ⟨?_, ?_, ?_, ?_, ?_, ?_⟩
    · rw [DeleteSegment_eq]
    · rw [DeleteSegment_eq]
      exact Cache.cache_Get_Remove_self _ _
    · intro st hst hok
      rw [DeleteSegment_eq]
      simp [record, hst, Storage.store_Get_Remove_self st _ hok]
    · rw [DeleteSegment_eq]
    · simp only [DeleteSegment_eq]
      exact Cache.cache_Remove_Remove _ _
    · intro h
      simp only [DeleteSegment_eq]
      cases hst : r.storage with
      | none => simp [contents, Cache.cache_Remove_Remove]
      | some st =>
        simp [contents, Cache.cache_Remove_Remove,
          Storage.store_Remove_Remove_data st _ (h st hst)]

/-- Witness of C13 amended: deleting the never stored flag `x` and segment `x`
twice on a repository with an empty cache, an empty store and a callback. -/
theorem Delete_unconditional_idempotent_witness :
    ((emptyObserved.DeleteFlag "x").1 = .ok () ∧
        (emptyObserved.DeleteFlag "x").2.callback = some [Event.OnFlagDeleted "x"] ∧
        ((emptyObserved.DeleteFlag "x").2.DeleteFlag "x").2.contents
          = (emptyObserved.DeleteFlag "x").2.contents) ∧
      ((emptyObserved.DeleteSegment "x").1 = .ok () ∧
        (emptyObserved.DeleteSegment "x").2.callback = some [Event.OnSegmentDeleted "x"] ∧
        ((emptyObserved.DeleteSegment "x").2.DeleteSegment "x").2.contents
          = (emptyObserved.DeleteSegment "x").2.contents) :=
  ⟨⟨(Delete_unconditional_idempotent emptyObserved "x").1.1,
      (Delete_unconditional_idempotent emptyObserved "x").1.2.2.2.1,
      (Delete_unconditional_idempotent emptyObserved "x").1.2.2.2.2.2
        (by intro st hst; cases hst; exact Or.inl (by simp [Storage.nextSucceeds, emptyStore]))⟩,
    ⟨(Delete_unconditional_idempotent emptyObserved "x").2.1,
      (Delete_unconditional_idempotent emptyObserved "x").2.2.2.2.1,
      (Delete_unconditional_idempotent emptyObserved "x").2.2.2.2.2.2
        (by intro st hst; cases hst; exact Or.inl (by simp [Storage.nextSucceeds, emptyStore]))⟩⟩

/-- C14: delete frame. For every state and identifier, `DeleteFlag(id)` leaves
every key other than `flag/<id>` as it was in both tiers; in particular every
collection key `flags/<envID>` and `target-segments/<envID>` and every segment
key keeps its value. Likewise `DeleteSegment(id)` leaves every key other than
`target-segment/<id>` as it was, in particular every collection key and every
flag key. -/
theorem Delete_frame (r : FFRepository) (identifier : String) :
    ((∀ k, k ≠ formatFlagKey identifier →
          (r.DeleteFlag identifier).2.tiersAt k = r.tiersAt k) ∧
        (∀ envID y : String,
          (r.DeleteFlag identifier).2.tiersAt (formatFlagsKey envID)
              = r.tiersAt (formatFlagsKey envID) ∧
            (r.DeleteFlag identifier).2.tiersAt (formatSegmentsKey envID)
              = r.tiersAt (formatSegmentsKey envID) ∧
            (r.DeleteFlag identifier).2.tiersAt (formatSegmentKey y)
              = r.tiersAt (formatSegmentKey y))) ∧
      ((∀ k, k ≠ formatSegmentKey identifier →
          (r.DeleteSegment identifier).2.tiersAt k = r.tiersAt k) ∧
        (∀ envID y : String,
          (r.DeleteSegment identifier).2.tiersAt (formatFlagsKey envID)
              = r.tiersAt (formatFlagsKey envID) ∧
            (r.DeleteSegment identifier).2.tiersAt (formatSegmentsKey envID)
              = r.tiersAt (formatSegmentsKey envID) ∧
            (r.DeleteSegment identifier).2.tiersAt (formatFlagKey y)
              = r.tiersAt (formatFlagKey y))) := by
  refine ⟨⟨DeleteFlag_tiersAt_other r identifier, ?_⟩,
    ⟨DeleteSegment_tiersAt_other r identifier, ?_⟩⟩
  · intro envID y
    exact ⟨DeleteFlag_tiersAt_other r identifier _ (flagKey_ne_flagsKey _ _).symm,
      DeleteFlag_tiersAt_other r identifier _ (flagKey_ne_segmentsKey _ _).symm,
      DeleteFlag_tiersAt_other r identifier _ (flagKey_ne_segmentKey _ _).symm⟩
  · intro envID y
    exact ⟨DeleteSegment_tiersAt_other r identifier _ (flagsKey_ne_segmentKey _ _),
      DeleteSegment_tiersAt_other r identifier _ (segmentKey_ne_segmentsKey _ _).symm,
      DeleteSegment_tiersAt_other r identifier _ (flagKey_ne_segmentKey _ _)⟩

/-- Witness of C14: deleting flag `x` from a store that holds flag `x` and
segment `x` leaves the segment where it is. -/
theorem Delete_frame_witness :
    (storeFilled.DeleteFlag "x").2.tiersAt (formatSegmentKey "x")
      = storeFilled.tiersAt (formatSegmentKey "x") :=
  (Delete_frame storeFilled "x").1.1 (formatSegmentKey "x") (by decide)

/-- C15: key namespaces never collide. Each formatter returns its fixed prefix
followed by its argument, and for all strings `a` and `b` keys built by two
different formatters differ, whatever `a` and `b` contain. -/
theorem format_keys_pairwise_distinct (a b : String) :
    (formatFlagKey a = "flag/" ++ a ∧ formatFlagsKey b = "flags/" ++ b ∧
        formatSegmentKey a = "target-segment/" ++ a ∧
        formatSegmentsKey b = "target-segments/" ++ b) ∧
      formatFlagKey a ≠ formatFlagsKey b ∧
      formatFlagKey a ≠ formatSegmentKey b ∧
      formatFlagKey a ≠ formatSegmentsKey b ∧
      formatFlagsKey a ≠ formatSegmentKey b ∧
      formatFlagsKey a ≠ formatSegmentsKey b ∧
      formatSegmentKey a ≠ formatSegmentsKey b :=
  ⟨⟨rfl, rfl, rfl, rfl⟩, flagKey_ne_flagsKey a b, flagKey_ne_segmentKey a b,
    flagKey_ne_segmentsKey a b, flagsKey_ne_segmentKey a b, flagsKey_ne_segmentsKey a b,
    segmentKey_ne_segmentsKey a b⟩

/-- C16 as stated fails: on a cache-only repository whose cache is full, the
cache write of `SetFlag` evicts the segment entry, so `GetSegment("x")` returns
the segment before the call and a not-found error after it; likewise
`SetSegment` evicts a flag entry and changes the result of `GetFlag("x")`. -/
theorem Set_evicts_other_kind_in_full_cache :
    ((fullCacheSegment.GetSegment "x").1 = .ok (.ok (segmentX (some 5))) ∧
        ((fullCacheSegment.SetFlag (flagX (some 1)) true).2.GetSegment "x").1
          = .ok (.error { wraps := .ErrSegmentNotFound, identifier := "x" })) ∧
      ((fullCacheFlag.GetFlag "x").1 = .ok (.ok (flagX (some 5))) ∧
        ((fullCacheFlag.SetSegment (segmentX (some 1)) true).2.GetFlag "x").1
          = .ok (.error { wraps := .ErrFeatureConfigNotFound, identifier := "x" })) := by
  decide

/-- C16, amended: for every state and all identifiers (equal or not),
`DeleteFlag` leaves the result of every `GetSegment` unchanged, and so does
`SetFlag` whenever a store is configured or its cache write evicts no entry;
`DeleteSegment` leaves the result of every `GetFlag` unchanged, and so does
`SetSegment` under the same condition. -/
theorem flag_segment_noninterference (r : FFRepository) (y : String) :
    (∀ x : String, ((r.DeleteFlag x).2.GetSegment y).1 = (r.GetSegment y).1) ∧
      (∀ (featureConfig : FeatureConfig) (initialLoad : Bool),
        (r.storage.isSome = true ∨
          (r.cache.Set (formatFlagKey featureConfig.Feature)
            (.featureConfig featureConfig)).2 = false) →
        ((r.SetFlag featureConfig initialLoad).2.GetSegment y).1 = (r.GetSegment y).1) ∧
      (∀ x : String, ((r.DeleteSegment x).2.GetFlag y).1 = (r.GetFlag y).1) ∧
      (∀ (segment : Segment) (initialLoad : Bool),
        (r.storage.isSome = true ∨
          (r.cache.Set (formatSegmentKey segment.Identifier) (.segment segment)).2 = false) →
        ((r.SetSegment segment initialLoad).2.GetFlag y).1 = (r.GetFlag y).1) := by
  refine ⟨?_, ?_, ?_, ?_⟩
  · intro x
    exact getSegmentAndCache_fst_congr r _ y true
      (DeleteFlag_tiersAt_other r x _ (flagKey_ne_segmentKey x y).symm)
  · intro featureConfig initialLoad hkeep
    exact getSegmentAndCache_fst_congr r _ y true
      (SetFlag_tiersAt_other r featureConfig initialLoad _
        (flagKey_ne_segmentKey featureConfig.Feature y).symm hkeep)
  · intro x
    exact getFlagAndCache_fst_congr r _ y true
      (DeleteSegment_tiersAt_other r x _ (flagKey_ne_segmentKey y x))
  · intro segment initialLoad hkeep
    exact getFlagAndCache_fst_congr r _ y true
      (SetSegment_tiersAt_other r segment initialLoad _
        (flagKey_ne_segmentKey y segment.Identifier) hkeep)

/-- Witness of C16 amended: with a store configured, writing flag `x` leaves
the result of `GetSegment("x")` as it was, and deleting flag `x` does too. -/
theorem flag_segment_noninterference_witness :
    ((storeFilled.SetFlag (flagX (some 9)) false).2.GetSegment "x").1
        = (storeFilled.GetSegment "x").1 ∧
      ((storeFilled.DeleteFlag "x").2.GetSegment "x").1 = (storeFilled.GetSegment "x").1 :=
  ⟨(flag_segment_noninterference storeFilled "x").2.1 (flagX (some 9)) false (Or.inl rfl),
    (flag_segment_noninterference storeFilled "x").1 "x"⟩

/-- C17 as stated fails in two ways. When the store rejects the `Set`, an
accepted `SetFlags` returns normally but the tier of record holds nothing under
`flags/env`. And on a cache-only repository whose cache is full, the cache
write evicts the single-flag entry `flag/x`, so `GetFlag("x")` returns the flag
before the call and a not-found error after it. -/
theorem SetFlags_store_failure_and_eviction :
    ((emptyFailingStore.SetFlags true "env" [flagX (some 1)]).1 = .ok () ∧
        (emptyFailingStore.SetFlags true "env" [flagX (some 1)]).2.record (formatFlagsKey "env")
          = none) ∧
      ((fullCacheFlag.GetFlag "x").1 = .ok (.ok (flagX (some 5))) ∧
        ((fullCacheFlag.SetFlags true "env" [flagX (some 5)]).2.GetFlag "x").1
          = .ok (.error { wraps := .ErrFeatureConfigNotFound, identifier := "x" })) := by
  decide

/-- C17, amended: for every state, environment id and batch, an accepted
`SetFlags(initialLoad, envID, batch)` returns normally; when no store is
configured or the store accepts the `Set`, the tier of record then holds the
whole batch as one value under `flags/<envID>`; and when a store is configured
or the cache write evicts no entry, every other key is as it was in both
tiers, so no single-flag key is created or changed and `GetFlag` on every
identifier returns the same result after the call as before. -/
theorem SetFlags_touches_only_collection_key (r : FFRepository) (initialLoad : Bool)
    (envID : String) (flags : List FeatureConfig)
    (hacc : initialLoad = true ∨ (r.areFlagsOutdated flags).1 = .ok false) :
    (r.SetFlags initialLoad envID flags).1 = .ok () ∧
      ((∀ st, r.storage = some st → st.nextSucceeds) →
        (r.SetFlags initialLoad envID flags).2.record (formatFlagsKey envID)
          = some (.featureConfigs flags)) ∧
      ((r.storage.isSome = true ∨
          (r.cache.Set (formatFlagsKey envID) (.featureConfigs flags)).2 = false) →
        (∀ k, k ≠ formatFlagsKey envID →
          (r.SetFlags initialLoad envID flags).2.tiersAt k = r.tiersAt k) ∧
        (∀ identifier : String,
          (r.SetFlags initialLoad envID flags).2.tiersAt (formatFlagKey identifier)
              = r.tiersAt (formatFlagKey identifier) ∧
            ((r.SetFlags initialLoad envID flags).2.GetFlag identifier).1
              = (r.GetFlag identifier).1)) := by
  refine ⟨?_, ?_, ?_⟩
  · rw [SetFlags_accepted r initialLoad envID flags hacc]
  · intro hset
    rw [SetFlags_accepted r initialLoad envID flags hacc]
    cases hs : r.storage with
    | none => simp [record, Cache.cache_Get_Set_self]
    | some st => simp [record, Storage.store_Get_Set_self st _ _ (hset st hs)]
  · intro hkeep
    refine ⟨fun k hk => SetFlags_tiersAt_other r initialLoad envID flags k hk hacc hkeep, ?_⟩
    intro identifier
    have hfr := SetFlags_tiersAt_other r initialLoad envID flags (formatFlagKey identifier)
      (flagKey_ne_flagsKey identifier envID) hacc hkeep
    exact ⟨hfr, getFlagAndCache_fst_congr r _ identifier true hfr⟩

/-- Witness of C17 amended: a collection write on a store that holds flag `x`
at version 5, with a newer element for `x`, stores the batch under `flags/env`
and leaves `GetFlag("x")` as it was. -/
theorem SetFlags_touches_only_collection_key_witness :
    (storeAt5.areFlagsOutdated [flagX (some 6)]).1 = .ok false ∧
      (storeAt5.SetFlags false "env" [flagX (some 6)]).1 = .ok () ∧
      (storeAt5.SetFlags false "env" [flagX (some 6)]).2.record (formatFlagsKey "env")
        = some (.featureConfigs [flagX (some 6)]) ∧
      ((storeAt5.SetFlags false "env" [flagX (some 6)]).2.GetFlag "x").1
        = (storeAt5.GetFlag "x").1 :=
  ⟨by decide,
    (SetFlags_touches_only_collection_key storeAt5 false "env" [flagX (some 6)]
      (Or.inr (by decide))).1,
    (SetFlags_touches_only_collection_key storeAt5 false "env" [flagX (some 6)]
      (Or.inr (by decide))).2.1 (by intro st hst; cases hst; simp [Storage.nextSucceeds]),
    (((SetFlags_touches_only_collection_key storeAt5 false "env" [flagX (some 6)]
      (Or.inr (by decide))).2.2 (Or.inl rfl)).2 "x").2⟩

/-- C18: the cache-hit path is independent of the store. For every cache that
holds the flag definition `v` under `flag/<identifier>` and any two repositories
built on that cache, with any two stores or none and any callback, `GetFlag`
returns `v` with no error in both runs and leaves cache, store and callback
record as they were. The same holds for `GetSegment`. -/
theorem cache_hit_independent_of_store (c : Cache) (identifier : String)
    (s1 s2 : Option Storage) (cb1 cb2 : Option (List Event)) :
    (∀ v : FeatureConfig, c.Get (formatFlagKey identifier) = some (.featureConfig v) →
        ({ cache := c, storage := s1, callback := cb1 } : FFRepository).GetFlag identifier
            = (.ok (.ok v), { cache := c, storage := s1, callback := cb1 }) ∧
          ({ cache := c, storage := s2, callback := cb2 } : FFRepository).GetFlag identifier
            = (.ok (.ok v), { cache := c, storage := s2, callback := cb2 })) ∧
      (∀ w : Segment, c.Get (formatSegmentKey identifier) = some (.segment w) →
        ({ cache := c, storage := s1, callback := cb1 } : FFRepository).GetSegment identifier
            = (.ok (.ok w), { cache := c, storage := s1, callback := cb1 }) ∧
          ({ cache := c, storage := s2, callback := cb2 } : FFRepository).GetSegment identifier
            = (.ok (.ok w), { cache := c, storage := s2, callback := cb2 })) := by
  constructor
  · intro v hv
    constructor <;> simp [GetFlag, getFlagAndCache, hv, assertFeatureConfig]
  · intro w hw
    constructor <;> simp [GetSegment, getSegmentAndCache, hw, assertSegment]

/-- Witness of C18: a cached flag `x` at version 1 is returned both with a
store that holds version 5 and without any store. -/
theorem cache_hit_independent_of_store_witness :
    cacheBehindStore.GetFlag "x" = (.ok (.ok (flagX (some 1))), cacheBehindStore) ∧
      (New cacheBehindStore.cache).GetFlag "x"
        = (.ok (.ok (flagX (some 1))), New cacheBehindStore.cache) :=
  (cache_hit_independent_of_store cacheBehindStore.cache "x" cacheBehindStore.storage none
    none none).1 (flagX (some 1)) (by decide)

/-- C19: each key formatter is injective: two identifiers (or environment ids)
with the same key under one formatter are equal. -/
theorem format_keys_injective (a b : String) :
    (formatFlagKey a = formatFlagKey b → a = b) ∧
      (formatFlagsKey a = formatFlagsKey b → a = b) ∧
      (formatSegmentKey a = formatSegmentKey b → a = b) ∧
      (formatSegmentsKey a = formatSegmentsKey b → a = b) :=
  ⟨append_left_cancel "flag/" a b, append_left_cancel "flags/" a b,
    append_left_cancel "target-segment/" a b, append_left_cancel "target-segments/" a b⟩

/-- C20: the accept or reject decision of `SetFlags(initialLoad=false, envID,
batch)` is determined by what the two tiers hold under the single-flag keys
`flag/<identifier>` of the batch elements: two states that agree on those keys
reach the same decision, whatever they hold under `flags/<envID>`. And on a
cache-only repository holding the collection `[x at 5]` under `flags/env` and no
single-flag entry for `x`, `SetFlags(false, "env", [x at 1])` is accepted and
replaces the collection, so the version of `x` inside it goes from 5 to 1. -/
theorem SetFlags_decision_ignores_collection :
    (∀ (r r2 : FFRepository) (flags : List FeatureConfig),
        (∀ fc ∈ flags,
          r2.tiersAt (formatFlagKey fc.Feature) = r.tiersAt (formatFlagKey fc.Feature)) →
        (r2.areFlagsOutdated flags).1 = (r.areFlagsOutdated flags).1) ∧
      (collectionAt5.record (formatFlagsKey "env") = some (.featureConfigs [flagX (some 5)]) ∧
        collectionAt5.tiersAt (formatFlagKey "x") = (none, none) ∧
        (collectionAt5.SetFlags false "env" [flagX (some 1)]).1 = .ok () ∧
        (collectionAt5.SetFlags false "env" [flagX (some 1)]).2.record (formatFlagsKey "env")
          = some (.featureConfigs [flagX (some 1)])) :=
  ⟨areFlagsOutdated_fst_congr, by decide⟩

/-- Witness of C20: the decision on the batch `[x at 1]` is the same with and
without the collection stored under `flags/env`. -/
theorem SetFlags_decision_ignores_collection_witness :
    (collectionAt5.areFlagsOutdated [flagX (some 1)]).1
      = ((New emptyCache).areFlagsOutdated [flagX (some 1)]).1 :=
  SetFlags_decision_ignores_collection.1 (New emptyCache) collectionAt5 [flagX (some 1)]
    (by
      intro fc hfc
      simp only [List.mem_singleton] at hfc
      subst hfc
      decide)

end Repository
